import Mathlib

/-
Verification of the mafia game engine domain model and command layer.
The Go source is shallowly embedded: in-place mutation of the game state
becomes explicit state passing (operations return the new state together
with their result), Go maps become insertion-ordered association lists,
and the nondeterministic inputs of the engine (generated player ids and
names, the shuffle order, the map-iteration order over the role
distribution) become explicit parameters of the corresponding commands.
-/

/- Role enum from domain/player.go. -/
inductive Role where
  | unknown
  | villager
  | mafia
  | doctor
  | sheriff
deriving DecidableEq, Repr

/- Mirrors Role.String() from domain/player.go. -/
def Role.toStr : Role → String
  | .unknown => "unknown"
  | .villager => "villager"
  | .mafia => "mafia"
  | .doctor => "doctor"
  | .sheriff => "sheriff"

/- Mirrors Role.IsVillagerTeam from domain/player.go. -/
def Role.isVillagerTeam (r : Role) : Bool :=
  r = .villager || r = .doctor || r = .sheriff

/- Mirrors Role.IsMafiaTeam from domain/player.go. -/
def Role.isMafiaTeam (r : Role) : Bool :=
  r = .mafia

/- Mirrors Role.HasNightAction from domain/player.go. -/
def Role.hasNightAction (r : Role) : Bool :=
  r = .mafia || r = .doctor || r = .sheriff

/- Phase enum from the domain phase file. -/
inductive Phase where
  | unknown
  | waiting
  | night
  | day
  | voting
  | ended
deriving DecidableEq, Repr

/- Mirrors Phase.String(). -/
def Phase.toStr : Phase → String
  | .unknown => "unknown"
  | .waiting => "waiting"
  | .night => "night"
  | .day => "day"
  | .voting => "voting"
  | .ended => "ended"

/- Winner enum from domain/state.go. -/
inductive Winner where
  | none
  | mafia
  | village
deriving DecidableEq, Repr

/- Mirrors Winner.String() from domain/state.go. -/
def Winner.toStr : Winner → String
  | .none => "none"
  | .mafia => "mafia"
  | .village => "village"

/- Player struct from domain/player.go. -/
structure Player where
  id : String
  name : String
  role : Role
  alive : Bool
deriving DecidableEq, Repr

/- Association-list rendering of a Go map, keeping insertion order.
Keys are unique by construction of every operation below. -/
def alLookup {α : Type} (l : List (String × α)) (k : String) : Option α :=
  match l with
  | [] => Option.none
  | (k2, v) :: rest => if k2 = k then Option.some v else alLookup rest k

/- Pointwise update of the entry holding key k, identity if k is absent. -/
def alUpdate {α : Type} (l : List (String × α)) (k : String) (f : α → α) :
    List (String × α) :=
  match l with
  | [] => []
  | (k2, v) :: rest =>
      if k2 = k then (k2, f v) :: rest else (k2, v) :: alUpdate rest k f

/- GameState struct from domain/state.go. -/
structure GameState where
  id : String
  round : Int
  phase : Phase
  winner : Winner
  players : List (String × Player)
  votes : List (String × String)
  mafiaTarget : String
  doctorTarget : String
  sheriffTarget : String
  previousDoctorTarget : String
  sheriffUsedBullet : Bool
deriving DecidableEq, Repr

/- Mirrors NewGameState from domain/state.go. CreateGameID draws a random
suffix; the fully formed id is supplied by the caller here. -/
def NewGameState (gid : String) : GameState :=
  { id := gid
    round := 1
    phase := .waiting
    winner := .none
    players := []
    votes := []
    mafiaTarget := ""
    doctorTarget := ""
    sheriffTarget := ""
    previousDoctorTarget := ""
    sheriffUsedBullet := false }

/- Mirrors GameState.GetPlayer from domain/state.go. -/
def GameState.getPlayer (g : GameState) (pid : String) : Option Player :=
  alLookup g.players pid

/- Mirrors GameState.GetPlayerCount from domain/state.go. -/
def GameState.getPlayerCount (g : GameState) : Nat :=
  g.players.length

/- Count of alive mafia-team players, as tallied by the loop inside
GameState.IsGameOver in domain/state.go. -/
def GameState.mafiaAlive (g : GameState) : Nat :=
  (g.players.filter (fun p => p.2.alive && p.2.role.isMafiaTeam)).length

/- Count of alive village-side players, the else branch of the same loop
(every alive player whose role is not mafia team). -/
def GameState.villageAlive (g : GameState) : Nat :=
  (g.players.filter (fun p => p.2.alive && !p.2.role.isMafiaTeam)).length

/- Mirrors GameState.IsGameOver from domain/state.go: checks the win
conditions, and on a win writes Winner and Phase. Returns the boolean
result together with the possibly updated state. -/
def GameState.isGameOver (g : GameState) : Bool × GameState :=
  if g.mafiaAlive = 0 then
    (true, { g with winner := .village, phase := .ended })
  else if g.villageAlive ≤ g.mafiaAlive then
    (true, { g with winner := .mafia, phase := .ended })
  else
    (false, g)

/- Mirrors GameState.EliminatePlayer from domain/state.go. -/
def GameState.eliminatePlayer (g : GameState) (pid : String) :
    Option Player × GameState :=
  match alLookup g.players pid with
  | Option.none => (Option.none, g)
  | Option.some p =>
      if !p.alive then (Option.none, g)
      else
        (Option.some { p with alive := false },
         { g with players := alUpdate g.players pid (fun q => { q with alive := false }) })

/- Mirrors GameState.ResetPhaseData from domain/state.go: clears votes and
the three night-target slots, first saving DoctorTarget into
PreviousDoctorTarget; SheriffUsedBullet is untouched. -/
def GameState.resetPhaseData (g : GameState) : GameState :=
  { g with
    votes := []
    previousDoctorTarget := g.doctorTarget
    mafiaTarget := ""
    doctorTarget := ""
    sheriffTarget := "" }

/- Mirrors GameState.RegisterVote from domain/state.go. -/
def GameState.registerVote (g : GameState) (voterID targetID : String) :
    Bool × GameState :=
  match g.getPlayer voterID with
  | Option.none => (false, g)
  | Option.some voter =>
      if !voter.alive then (false, g)
      else
        match g.getPlayer targetID with
        | Option.none => (false, g)
        | Option.some target =>
            if !target.alive then (false, g)
            else if (alLookup g.votes voterID).isSome then (false, g)
            else (true, { g with votes := g.votes ++ [(voterID, targetID)] })

/- Mirrors GameState.SetNightAction from domain/state.go. -/
def GameState.setNightAction (g : GameState) (role : Role)
    (actorID targetID : String) : Bool × GameState :=
  if !role.hasNightAction then (false, g)
  else
    match g.getPlayer targetID with
    | Option.none => (false, g)
    | Option.some target =>
        if !target.alive then (false, g)
        else
          match role with
          | .mafia =>
              if g.mafiaTarget ≠ "" then (false, g)
              else if actorID = targetID then (false, g)
              else (true, { g with mafiaTarget := targetID })
          | .doctor =>
              if g.doctorTarget ≠ "" then (false, g)
              else if g.previousDoctorTarget = targetID then (false, g)
              else (true, { g with doctorTarget := targetID })
          | .sheriff =>
              if g.sheriffTarget ≠ "" then (false, g)
              else if g.sheriffUsedBullet then (false, g)
              else if actorID = targetID then (false, g)
              else (true, { g with sheriffTarget := targetID, sheriffUsedBullet := true })
          | _ => (false, g)

/- Mirrors GameState.ResolveNightActions from domain/state.go; reads state
only, returning the id of the player who dies (empty string when nobody). -/
def GameState.resolveNightActions (g : GameState) : String :=
  if g.mafiaTarget = "" then ""
  else if g.doctorTarget = g.mafiaTarget then ""
  else g.mafiaTarget

/- Body of the loop inside TallyVotes: look the target up, defaulting a
missing key to zero votes, and store count plus one. -/
def bumpTally (tally : List (String × Nat)) (target : String) : List (String × Nat) :=
  match alLookup tally target with
  | Option.none => tally ++ [(target, 1)]
  | Option.some _ => alUpdate tally target (fun c => c + 1)

/- Mirrors TallyVotes from the domain voting file: builds the map from
target id to vote count by walking the votes map. -/
def TallyVotes (votes : List (String × String)) : List (String × Nat) :=
  votes.foldl (fun tally vt => bumpTally tally vt.2) []

/- One iteration of the loop inside getTopVoted: running maximum and the
slice of players holding it. -/
def topStep (acc : Nat × List String) (e : String × Nat) : Nat × List String :=
  if acc.1 < e.2 then (e.2, [e.1])
  else if e.2 = acc.1 then (acc.1, acc.2 ++ [e.1])
  else acc

/- Mirrors getTopVoted from the domain voting file. -/
def getTopVoted (votes : List (String × String)) : List String :=
  if votes.length = 0 then []
  else ((TallyVotes votes).foldl topStep (0, [])).2

/- Mirrors GetVoteWinner from the domain voting file. -/
def GetVoteWinner (votes : List (String × String)) : String × Bool :=
  let highestVotedPlayer := getTopVoted votes
  if highestVotedPlayer.length ≠ 1 then ("", false)
  else (highestVotedPlayer.headD "", true)

/- Mirrors GameState.ResolveVotingPhase from domain/state.go; reads state
only. -/
def GameState.resolveVotingPhase (g : GameState) : String :=
  if g.votes.length = 0 then ""
  else
    let w := GetVoteWinner g.votes
    if !w.2 then "" else w.1

/- Mirrors CanAddPlayer from domain/rules.go. -/
def CanAddPlayer (currentPlayerCount maxPlayers : Nat) : Bool :=
  currentPlayerCount < maxPlayers

/- Mirrors CanStartGame from domain/rules.go. -/
def CanStartGame (currentPlayerCount minPlayers maxPlayers : Nat) : Bool :=
  currentPlayerCount ≤ maxPlayers && minPlayers ≤ currentPlayerCount

/- Mirrors GetRoleDistribution from domain/rules.go, rendered as the
lookup function of the returned map (absent keys read as zero, and the
villager count is an integer because it can go negative for tiny counts,
exactly as in Go). -/
def GetRoleDistribution (currentPlayerCount : Nat) : Role → Int :=
  let mafiaCount : Int := (currentPlayerCount / 3 : Nat)
  let doctorCount : Int := 1
  let sheriffCount : Int := 1
  let villagerCount : Int :=
    (currentPlayerCount : Int) - mafiaCount - doctorCount - sheriffCount
  fun r =>
    match r with
    | .villager => villagerCount
    | .mafia => mafiaCount
    | .doctor => doctorCount
    | .sheriff => sheriffCount
    | .unknown => 0

/- Expansion of the nested loops of AssignRolesToPlayers: the outer range
over the role-count map visits the roles in some order (roleSeq), and each
role contributes count copies; a negative count contributes none, like a
Go range over a negative int. -/
def expandRoles (dist : Role → Int) (roleSeq : List Role) : List Role :=
  roleSeq.flatMap (fun r => List.replicate (dist r).toNat r)

/- Assignment of one role to one player id in the players map. -/
def setRole (players : List (String × Player)) (pid : String) (r : Role) :
    List (String × Player) :=
  alUpdate players pid (fun p => { p with role := r })

/- Mirrors GameState.AssignRolesToPlayers from domain/state.go: the
shuffled alive-player order and the map-iteration order over roles are
the two nondeterministic inputs, passed explicitly. When the expanded
role list outruns the shuffled slice (player counts of at most one, for
which doctor plus sheriff exceed the players) the Go code indexes out of
range and panics; the zip below truncates instead, so statements about
that region describe a run the Go program cannot complete. Every guarded
start the engine performs stays inside the agreeing region. -/
def GameState.assignRolesToPlayers (g : GameState) (shuffled : List String)
    (roleSeq : List Role) : GameState :=
  let assigned := List.zip shuffled (expandRoles (GetRoleDistribution g.getPlayerCount) roleSeq)
  { g with players := assigned.foldl (fun ps a => setRole ps a.1 a.2) g.players }

/- Outcome events carried by PublishEffect descriptors, with the payload
fields the engine fills in commands.go (timestamps are stamped later by
the effect executor and are not part of the decision). -/
inductive GameEvent where
  | gameStarted (players : List String)
  | roleAssigned (playerID : String) (role : String)
  | phaseChanged (round : Int) (oldPhase newPhase : String)
  | playerEliminated (playerID reason : String)
  | gameEnded (winner : String)
  | allChat (sender message : String)
  | mafiaChatMsg (sender message : String)
deriving DecidableEq, Repr

/- Command catalog from engine/commands.go. AddPlayer carries the id and
name the generator would produce (Option.none when the name pool is
exhausted and NewPlayer fails); StartGame carries the shuffle order and
the role-map iteration order. -/
inductive Command where
  | addPlayer (gen : Option (String × String)) (maxPlayers : Nat)
  | startGame (minPlayers maxPlayers : Nat) (shuffled : List String) (roleSeq : List Role)
  | vote (voterID targetID : String)
  | chat (senderID message : String)
  | mafiaChat (senderID message : String)
  | nightAction (role : String) (actorID targetID : String)
  | phaseChange (newPhase : Phase)
  | eliminatePlayer (playerID reason : String)
deriving DecidableEq, Repr

/- Mirrors AddPlayerCommand.Apply from engine/commands.go. -/
def applyAddPlayer (gen : Option (String × String)) (maxPlayers : Nat)
    (g : GameState) : Except String (List GameEvent) × GameState :=
  if g.phase ≠ .waiting then
    (.error "cannot add players after game has started", g)
  else if !CanAddPlayer g.getPlayerCount maxPlayers then
    (.error "cannot add player: max players reached", g)
  else
    match gen with
    | Option.none => (.error "failed to create player", g)
    | Option.some (pid, pname) =>
        match alLookup g.players pid with
        | Option.some _ => (.error "failed to add player: duplicate ID", g)
        | Option.none =>
            let player : Player := { id := pid, name := pname, role := .unknown, alive := true }
            (.ok [], { g with players := g.players ++ [(pid, player)] })

/- Mirrors StartGameCommand.Apply from engine/commands.go. -/
def applyStartGame (minPlayers maxPlayers : Nat) (shuffled : List String)
    (roleSeq : List Role) (g : GameState) :
    Except String (List GameEvent) × GameState :=
  if g.phase ≠ .waiting then
    (.error "cannot start game in this phase", g)
  else if !CanStartGame g.getPlayerCount minPlayers maxPlayers then
    (.error "cannot start game: player count out of bounds", g)
  else
    let g1 := g.assignRolesToPlayers shuffled roleSeq
    let g2 := { g1 with phase := Phase.night, round := 1 }
    let playerIDs := g2.players.map (fun p => p.1)
    let effs :=
      GameEvent.gameStarted playerIDs ::
        (g2.players.map (fun p => GameEvent.roleAssigned p.2.id p.2.role.toStr) ++
          [GameEvent.phaseChanged g2.round Phase.waiting.toStr Phase.night.toStr])
    (.ok effs, g2)

/- Mirrors VoteCommand.Apply from engine/commands.go. -/
def applyVote (voterID targetID : String) (g : GameState) :
    Except String (List GameEvent) × GameState :=
  if g.phase ≠ .voting then
    (.error "cannot vote in this phase", g)
  else
    match g.registerVote voterID targetID with
    | (false, g2) => (.error "vote rejected: invalid voter or target or duplicate vote", g2)
    | (true, g2) => (.ok [], g2)

/- Mirrors ChatCommand.Apply from engine/commands.go. -/
def applyChat (senderID message : String) (g : GameState) :
    Except String (List GameEvent) × GameState :=
  match g.getPlayer senderID with
  | Option.none => (.error "sender not found", g)
  | Option.some sender =>
      if !sender.alive then (.error "sender is dead and cannot speak", g)
      else (.ok [GameEvent.allChat senderID message], g)

/- Mirrors MafiaChatCommand.Apply from engine/commands.go. -/
def applyMafiaChat (senderID message : String) (g : GameState) :
    Except String (List GameEvent) × GameState :=
  match g.getPlayer senderID with
  | Option.none => (.error "sender not found", g)
  | Option.some sender =>
      if !sender.alive then (.error "sender is dead and cannot speak", g)
      else if !sender.role.isMafiaTeam then
        (.error "sender is not mafia and cannot use mafia chat", g)
      else if g.phase ≠ .night then
        (.error "mafia chat only available during night phase", g)
      else (.ok [GameEvent.mafiaChatMsg senderID message], g)

/- Mirrors NightActionCommand.Apply from engine/commands.go. -/
def applyNightAction (role : String) (actorID targetID : String) (g : GameState) :
    Except String (List GameEvent) × GameState :=
  if g.phase ≠ .night then
    (.error "cannot perform night action in this phase", g)
  else
    match g.getPlayer actorID with
    | Option.none => (.error "actor not found", g)
    | Option.some actor =>
        if !actor.alive then (.error "actor is dead", g)
        else if actor.role.toStr ≠ role then
          (.error "actor role does not match the action role", g)
        else
          match g.setNightAction actor.role actorID targetID with
          | (false, g2) => (.error "night action rejected: rules violated", g2)
          | (true, g2) => (.ok [], g2)

/- Mirrors PhaseChangeCommand.Apply from engine/commands.go. -/
def applyPhaseChange (newPhase : Phase) (g : GameState) :
    Except String (List GameEvent) × GameState :=
  let resolved :=
    match g.phase with
    | .night =>
        let eid := g.resolveNightActions
        if eid ≠ "" then (eid, "killed_by_mafia", (g.eliminatePlayer eid).2)
        else ("", "", g)
    | .voting =>
        let eid := g.resolveVotingPhase
        if eid ≠ "" then (eid, "voted_out", (g.eliminatePlayer eid).2)
        else ("", "", g)
    | _ => ("", "", g)
  let eliminatedPlayerID := resolved.1
  let eliminationReason := resolved.2.1
  let g1 := resolved.2.2
  let g2 := g1.resetPhaseData
  let oldPhase := g2.phase
  let g3 := { g2 with phase := newPhase }
  let g4 := if newPhase = Phase.night then { g3 with round := g3.round + 1 } else g3
  let over := g4.isGameOver
  let gameEnded := over.1
  let g5 := over.2
  let effs :=
    GameEvent.phaseChanged g5.round oldPhase.toStr newPhase.toStr ::
      ((if eliminatedPlayerID ≠ "" then
          [GameEvent.playerEliminated eliminatedPlayerID eliminationReason]
        else []) ++
        (if gameEnded then [GameEvent.gameEnded g5.winner.toStr] else []))
  (.ok effs, g5)

/- Mirrors EliminatePlayerCommand.Apply from engine/commands.go. -/
def applyEliminatePlayer (playerID reason : String) (g : GameState) :
    Except String (List GameEvent) × GameState :=
  match g.eliminatePlayer playerID with
  | (Option.none, g2) => (.error "player not found or already dead", g2)
  | (Option.some _, g2) =>
      let over := g2.isGameOver
      let gameEnded := over.1
      let g3 := over.2
      let effs :=
        GameEvent.playerEliminated playerID reason ::
          (if gameEnded then [GameEvent.gameEnded g3.winner.toStr] else [])
      (.ok effs, g3)

/- Dispatch over the command catalog. -/
def applyCmd (c : Command) (g : GameState) :
    Except String (List GameEvent) × GameState :=
  match c with
  | .addPlayer gen maxP => applyAddPlayer gen maxP g
  | .startGame minP maxP shuffled roleSeq => applyStartGame minP maxP shuffled roleSeq g
  | .vote voterID targetID => applyVote voterID targetID g
  | .chat senderID message => applyChat senderID message g
  | .mafiaChat senderID message => applyMafiaChat senderID message g
  | .nightAction role actorID targetID => applyNightAction role actorID targetID g
  | .phaseChange newPhase => applyPhaseChange newPhase g
  | .eliminatePlayer playerID reason => applyEliminatePlayer playerID reason g

/- The engine loop applies each queued command to the single game state;
rejected commands leave whatever state Apply returned (the loop keeps the
state object either way). -/
def applyAll (g : GameState) (cmds : List Command) : GameState :=
  cmds.foldl (fun s c => (applyCmd c s).2) g

/- Boolean success test on the result of Apply. -/
def exceptOk {α : Type} (e : Except String α) : Bool :=
  match e with
  | .ok _ => true
  | .error _ => false

/- Largest count appearing in a tally (zero on an empty tally); proof-side
helper for reasoning about the getTopVoted loop. -/
def maxCounts (l : List (String × Nat)) : Nat :=
  l.foldr (fun e n => max e.2 n) 0

/- The phase-change commands the engine itself generates: the timer only
arms for phases with a configured timeout (Night, Day, Voting) and never
re-arms once the phase is Ended, so every generated PhaseChange targets
one of the three cycle phases and fires on a game that has not ended. -/
def allowedCmd (g : GameState) (c : Command) : Prop :=
  match c with
  | .phaseChange p =>
      (p = Phase.night ∨ p = Phase.day ∨ p = Phase.voting) ∧ g.phase ≠ Phase.ended
  | _ => True

/- A command sequence each of whose phase changes is engine-generated in
the sense of allowedCmd, checked along the run. -/
def AllowedRun : GameState → List Command → Prop
  | _, [] => True
  | g, c :: cs => allowedCmd g c ∧ AllowedRun (applyCmd c g).2 cs

/- Number of successful sheriff night actions along a run. -/
def sheriffSuccesses : GameState → List Command → Nat
  | _, [] => 0
  | g, c :: cs =>
      (match c with
       | .nightAction role actorID targetID =>
           if role = "sheriff" && exceptOk (applyNightAction role actorID targetID g).1 then 1
           else 0
       | _ => 0) + sheriffSuccesses (applyCmd c g).2 cs

/- The winner-ended tie: the winner field is set exactly on ended games. -/
def WinnerEndedInv (g : GameState) : Prop :=
  g.winner ≠ Winner.none ↔ g.phase = Phase.ended

/- Self-describing textual wire value: the JSON fragment the codec uses
(objects, arrays, strings, integer numbers, booleans, null). -/
inductive Json where
  | jnull
  | jbool (b : Bool)
  | jnum (n : Int)
  | jstr (s : String)
  | jarr (elems : List Json)
  | jobj (fields : List (String × Json))

/- Event type constants from events/types.go. -/
def TypeGameStarted : String := "game_started"

def TypePhaseChanged : String := "phase_changed"

def TypePlayerEliminated : String := "player_eliminated"

def TypeGameEnded : String := "game_ended"

def TypeAllChatMessage : String := "all_chat"

def TypeMafiaChatMessage : String := "mafia_chat"

def TypePlayerThoughts : String := "player_thoughts"

def TypeVoteSubmitted : String := "vote_submitted"

def TypeNightAction : String := "night_action"

def TypeRoleAssigned : String := "role_assigned"

/- BaseEvent header from events/types.go: game_id, timestamp, type. -/
structure BaseEvent where
  gameID : String
  timestamp : Int
  etype : String
deriving DecidableEq, Repr

/- AllChatMessage struct from events/types.go. -/
structure AllChatMessage where
  base : BaseEvent
  message : String
  senderID : String
deriving DecidableEq, Repr

/- MafiaChatMessage struct from events/types.go. -/
structure MafiaChatMessage where
  base : BaseEvent
  message : String
  senderID : String
deriving DecidableEq, Repr

/- PlayerThoughts struct from events/types.go. -/
structure PlayerThoughts where
  base : BaseEvent
  thought : String
  senderID : String
deriving DecidableEq, Repr

/- VoteSubmitted struct from events/types.go. -/
structure VoteSubmitted where
  base : BaseEvent
  voterID : String
  targetID : String
deriving DecidableEq, Repr

/- NightAction struct from events/types.go. -/
structure NightAction where
  base : BaseEvent
  role : String
  actorID : String
  targetID : String
deriving DecidableEq, Repr

/- Marshal for AllChatMessage: json.Marshal flattens the embedded header
first, then the struct fields under their snake_case tags. -/
def marshalAllChatMessage (e : AllChatMessage) : Json :=
  .jobj [("game_id", .jstr e.base.gameID), ("timestamp", .jnum e.base.timestamp),
         ("type", .jstr e.base.etype), ("message", .jstr e.message),
         ("sender", .jstr e.senderID)]

/- Marshal for MafiaChatMessage. -/
def marshalMafiaChatMessage (e : MafiaChatMessage) : Json :=
  .jobj [("game_id", .jstr e.base.gameID), ("timestamp", .jnum e.base.timestamp),
         ("type", .jstr e.base.etype), ("message", .jstr e.message),
         ("sender", .jstr e.senderID)]

/- Marshal for PlayerThoughts. -/
def marshalPlayerThoughts (e : PlayerThoughts) : Json :=
  .jobj [("game_id", .jstr e.base.gameID), ("timestamp", .jnum e.base.timestamp),
         ("type", .jstr e.base.etype), ("thought", .jstr e.thought),
         ("sender", .jstr e.senderID)]

/- Marshal for VoteSubmitted. -/
def marshalVoteSubmitted (e : VoteSubmitted) : Json :=
  .jobj [("game_id", .jstr e.base.gameID), ("timestamp", .jnum e.base.timestamp),
         ("type", .jstr e.base.etype), ("voter", .jstr e.voterID),
         ("target", .jstr e.targetID)]

/- Marshal for NightAction. -/
def marshalNightAction (e : NightAction) : Json :=
  .jobj [("game_id", .jstr e.base.gameID), ("timestamp", .jnum e.base.timestamp),
         ("type", .jstr e.base.etype), ("role", .jstr e.role),
         ("actor", .jstr e.actorID), ("target", .jstr e.targetID)]

/- Reading a string field the way json.Unmarshal fills a Go string: a
missing key leaves the zero value, a key holding a non-string is an
unmarshal error, and a non-object document is an error. -/
def getStrField (j : Json) (k : String) : Except String String :=
  match j with
  | .jobj fields =>
      match alLookup fields k with
      | Option.none => .ok ""
      | Option.some (.jstr s) => .ok s
      | Option.some _ => .error "cannot unmarshal field"
  | _ => .error "cannot unmarshal into struct"

/- Reading an int64 field with the same leniency. -/
def getIntField (j : Json) (k : String) : Except String Int :=
  match j with
  | .jobj fields =>
      match alLookup fields k with
      | Option.none => .ok 0
      | Option.some (.jnum n) => .ok n
      | Option.some _ => .error "cannot unmarshal field"
  | _ => .error "cannot unmarshal into struct"

/- Parsing the BaseEvent header, the first step of Deserialize. -/
def unmarshalBase (j : Json) : Except String BaseEvent := do
  let gid ← getStrField j "game_id"
  let ts ← getIntField j "timestamp"
  let ty ← getStrField j "type"
  .ok { gameID := gid, timestamp := ts, etype := ty }

/- Mirrors UnmarshalAllChatMessage from the events codec file. -/
def UnmarshalAllChatMessage (j : Json) : Except String AllChatMessage := do
  let base ← unmarshalBase j
  let msg ← getStrField j "message"
  let snd ← getStrField j "sender"
  .ok { base := base, message := msg, senderID := snd }

/- Mirrors UnmarshalMafiaChatMessage from the events codec file. -/
def UnmarshalMafiaChatMessage (j : Json) : Except String MafiaChatMessage := do
  let base ← unmarshalBase j
  let msg ← getStrField j "message"
  let snd ← getStrField j "sender"
  .ok { base := base, message := msg, senderID := snd }

/- Mirrors UnmarshalPlayerThoughts from the events codec file. -/
def UnmarshalPlayerThoughts (j : Json) : Except String PlayerThoughts := do
  let base ← unmarshalBase j
  let th ← getStrField j "thought"
  let snd ← getStrField j "sender"
  .ok { base := base, thought := th, senderID := snd }

/- Mirrors UnmarshalVoteSubmitted from the events codec file. -/
def UnmarshalVoteSubmitted (j : Json) : Except String VoteSubmitted := do
  let base ← unmarshalBase j
  let voter ← getStrField j "voter"
  let target ← getStrField j "target"
  .ok { base := base, voterID := voter, targetID := target }

/- Mirrors UnmarshalNightAction from the events codec file. -/
def UnmarshalNightAction (j : Json) : Except String NightAction := do
  let base ← unmarshalBase j
  let role ← getStrField j "role"
  let actor ← getStrField j "actor"
  let target ← getStrField j "target"
  .ok { base := base, role := role, actorID := actor, targetID := target }

/- Tagged union of the events the engine consumes, the result type of
Deserialize. -/
inductive InboundEvent where
  | allChatMsg (e : AllChatMessage)
  | mafiaChatMsg (e : MafiaChatMessage)
  | voteSubmittedEv (e : VoteSubmitted)
  | nightActionEv (e : NightAction)
  | playerThoughtsEv (e : PlayerThoughts)
deriving DecidableEq, Repr

/- Mirrors Deserialize from the events codec file: parse the header, then
dispatch on the type discriminator; engine-emitted-only types and unknown
types are errors. -/
def Deserialize (j : Json) : Except String InboundEvent := do
  let base ← unmarshalBase j
  if base.etype = TypeAllChatMessage then
    InboundEvent.allChatMsg <$> UnmarshalAllChatMessage j
  else if base.etype = TypeMafiaChatMessage then
    InboundEvent.mafiaChatMsg <$> UnmarshalMafiaChatMessage j
  else if base.etype = TypeVoteSubmitted then
    InboundEvent.voteSubmittedEv <$> UnmarshalVoteSubmitted j
  else if base.etype = TypeNightAction then
    InboundEvent.nightActionEv <$> UnmarshalNightAction j
  else if base.etype = TypePlayerThoughts then
    InboundEvent.playerThoughtsEv <$> UnmarshalPlayerThoughts j
  else if base.etype = TypeGameStarted ∨ base.etype = TypePhaseChanged ∨
      base.etype = TypePlayerEliminated ∨ base.etype = TypeGameEnded ∨
      base.etype = TypeRoleAssigned then
    .error "engine does not consume event type"
  else
    .error "unknown event type"

/-- C2: IsGameOver returns true with Winner set to Village and Phase set to
Ended exactly when no mafia-team player is alive; it returns true with
Winner set to Mafia and Phase set to Ended exactly when at least one mafia
is alive and the alive mafia count is at least the alive village count
(the overlap at zero alive players on both teams falls to the Village
branch, which the code checks first); otherwise it returns false and
leaves the state, in particular Winner and Phase, unchanged. -/
theorem isGameOver_win_conditions (g : GameState) :
    ((g.isGameOver.1 = true ∧ g.isGameOver.2.winner = Winner.village ∧
        g.isGameOver.2.phase = Phase.ended) ↔ g.mafiaAlive = 0) ∧
    ((g.isGameOver.1 = true ∧ g.isGameOver.2.winner = Winner.mafia ∧
        g.isGameOver.2.phase = Phase.ended) ↔
      (g.mafiaAlive ≠ 0 ∧ g.villageAlive ≤ g.mafiaAlive)) ∧
    (g.isGameOver.1 = false ↔ (g.mafiaAlive ≠ 0 ∧ g.mafiaAlive < g.villageAlive)) ∧
    (g.isGameOver.1 = false → g.isGameOver.2 = g) := by
  by_cases h1 : g.mafiaAlive = 0
  · simp [GameState.isGameOver, h1]
  · by_cases h2 : g.villageAlive ≤ g.mafiaAlive
    · simp [GameState.isGameOver, h1, h2]
    · simp [GameState.isGameOver, h1, h2]
      omega

/-- Witness for C2 at a concrete two-player state: one alive mafia against
one alive villager meets the parity condition, so the mafia branch fires. -/
theorem isGameOver_win_conditions_witness :
    (let g : GameState :=
      { NewGameState "game-w2" with
        phase := Phase.day
        players :=
          [("m1", { id := "m1", name := "m", role := Role.mafia, alive := true }),
           ("v1", { id := "v1", name := "v", role := Role.villager, alive := true })] }
     g.isGameOver.1 = true ∧ g.isGameOver.2.winner = Winner.mafia ∧
       g.isGameOver.2.phase = Phase.ended) :=
  (isGameOver_win_conditions _).2.1.mpr (by decide)

/-- C5: ResolveNightActions returns the empty string when the mafia target
slot is empty, returns the empty string when the doctor target equals the
mafia target, and otherwise returns the mafia target id; being a pure read
of the state in the source, it is embedded as a function with no state
output. -/
theorem resolveNightActions_spec (g : GameState) :
    (g.mafiaTarget = "" → g.resolveNightActions = "") ∧
    (g.doctorTarget = g.mafiaTarget → g.resolveNightActions = "") ∧
    (g.mafiaTarget ≠ "" → g.doctorTarget ≠ g.mafiaTarget →
      g.resolveNightActions = g.mafiaTarget) := by
  unfold GameState.resolveNightActions
  by_cases h1 : g.mafiaTarget = ""
  · simp [h1]
  · by_cases h2 : g.doctorTarget = g.mafiaTarget <;> simp [h1, h2]

/-- Witness for C5: on a state where the doctor target coincides with the
mafia target, the resolution names nobody. -/
theorem resolveNightActions_spec_witness :
    (let g : GameState :=
      { NewGameState "game-w5" with mafiaTarget := "p1", doctorTarget := "p1" }
     g.resolveNightActions = "") :=
  (resolveNightActions_spec _).2.1 (by decide)

/-- C8: for every player count accepted by the start-game guard, the role
distribution assigns mafia equal to the floor of a third of the count, one
doctor, one sheriff, and villagers equal to the count minus the other
three, and the four counts sum back to the count. -/
theorem getRoleDistribution_conservation (n minPlayers maxPlayers : Nat)
    (h : CanStartGame n minPlayers maxPlayers = true) :
    GetRoleDistribution n Role.mafia = ((n / 3 : Nat) : Int) ∧
    GetRoleDistribution n Role.doctor = 1 ∧
    GetRoleDistribution n Role.sheriff = 1 ∧
    GetRoleDistribution n Role.villager =
      (n : Int) - GetRoleDistribution n Role.mafia -
        GetRoleDistribution n Role.doctor - GetRoleDistribution n Role.sheriff ∧
    GetRoleDistribution n Role.villager + GetRoleDistribution n Role.mafia +
      GetRoleDistribution n Role.doctor + GetRoleDistribution n Role.sheriff = (n : Int) := by
  refine ⟨rfl, rfl, rfl, rfl, ?_⟩
  simp [GetRoleDistribution]
  ring

/-- Witness for C8 at six players with the default six-to-twelve bounds:
the distribution is two mafia, one doctor, one sheriff, two villagers. -/
theorem getRoleDistribution_conservation_witness :
    CanStartGame 6 6 12 = true ∧
    GetRoleDistribution 6 Role.villager + GetRoleDistribution 6 Role.mafia +
      GetRoleDistribution 6 Role.doctor + GetRoleDistribution 6 Role.sheriff = (6 : Int) :=
  ⟨by decide, (getRoleDistribution_conservation 6 6 12 (by decide)).2.2.2.2⟩

/-- Scaffolding: a rejected RegisterVote leaves the state untouched. -/
theorem registerVote_false_eq (g : GameState) (v t : String)
    (h : (g.registerVote v t).1 = false) : (g.registerVote v t).2 = g := by
  simp only [GameState.registerVote] at h ⊢
  repeat' split at h
  all_goals first | rfl | simp_all

/-- Scaffolding: a rejected SetNightAction leaves the state untouched. -/
theorem setNightAction_false_eq (g : GameState) (r : Role) (a t : String)
    (h : (g.setNightAction r a t).1 = false) : (g.setNightAction r a t).2 = g := by
  simp only [GameState.setNightAction] at h ⊢
  repeat' split at h
  all_goals first | rfl | simp_all

/-- Scaffolding: a rejected EliminatePlayer leaves the state untouched. -/
theorem eliminatePlayer_none_eq (g : GameState) (pid : String)
    (h : (g.eliminatePlayer pid).1 = Option.none) : (g.eliminatePlayer pid).2 = g := by
  simp only [GameState.eliminatePlayer] at h ⊢
  repeat' split at h
  all_goals first | rfl | simp_all

/-- Scaffolding: AddPlayer error atomicity. -/
theorem applyAddPlayer_error_eq (gen : Option (String × String)) (maxP : Nat)
    (g : GameState) (msg : String)
    (h : (applyAddPlayer gen maxP g).1 = Except.error msg) :
    (applyAddPlayer gen maxP g).2 = g := by
  simp only [applyAddPlayer] at h ⊢
  revert h
  repeat' split
  all_goals intro h
  all_goals first | rfl | exact Except.noConfusion h

/-- Scaffolding: StartGame error atomicity. -/
theorem applyStartGame_error_eq (minP maxP : Nat) (shuffled : List String)
    (roleSeq : List Role) (g : GameState) (msg : String)
    (h : (applyStartGame minP maxP shuffled roleSeq g).1 = Except.error msg) :
    (applyStartGame minP maxP shuffled roleSeq g).2 = g := by
  simp only [applyStartGame] at h ⊢
  revert h
  repeat' split
  all_goals intro h
  all_goals first | rfl | exact Except.noConfusion h

/-- Scaffolding: Vote error atomicity. -/
theorem applyVote_error_eq (v t : String) (g : GameState) (msg : String)
    (h : (applyVote v t g).1 = Except.error msg) : (applyVote v t g).2 = g := by
  simp only [applyVote] at h ⊢
  revert h
  repeat' split
  all_goals intro h
  all_goals first
    | rfl
    | exact Except.noConfusion h
    | (rename_i g2 heq
       have h1 := congrArg Prod.fst heq
       have h2 := registerVote_false_eq g v t h1
       rw [heq] at h2
       exact h2)

/-- Scaffolding: Chat error atomicity. -/
theorem applyChat_error_eq (s m : String) (g : GameState) (msg : String)
    (h : (applyChat s m g).1 = Except.error msg) : (applyChat s m g).2 = g := by
  simp only [applyChat] at h ⊢
  revert h
  repeat' split
  all_goals intro h
  all_goals first | rfl | exact Except.noConfusion h

/-- Scaffolding: MafiaChat error atomicity. -/
theorem applyMafiaChat_error_eq (s m : String) (g : GameState) (msg : String)
    (h : (applyMafiaChat s m g).1 = Except.error msg) : (applyMafiaChat s m g).2 = g := by
  simp only [applyMafiaChat] at h ⊢
  revert h
  repeat' split
  all_goals intro h
  all_goals first | rfl | exact Except.noConfusion h

/-- Scaffolding: NightAction error atomicity. -/
theorem applyNightAction_error_eq (r a t : String) (g : GameState) (msg : String)
    (h : (applyNightAction r a t g).1 = Except.error msg) :
    (applyNightAction r a t g).2 = g := by
  simp only [applyNightAction] at h ⊢
  revert h
  repeat' split
  all_goals intro h
  all_goals first
    | rfl
    | exact Except.noConfusion h
    | (rename_i g2 heq
       have h1 := congrArg Prod.fst heq
       have h2 := setNightAction_false_eq g _ a t h1
       rw [heq] at h2
       exact h2)

/-- Scaffolding: PhaseChange never errors. -/
theorem applyPhaseChange_never_errors (p : Phase) (g : GameState) (msg : String)
    (h : (applyPhaseChange p g).1 = Except.error msg) : False := by
  simp only [applyPhaseChange] at h
  exact Except.noConfusion h

/-- Scaffolding: EliminatePlayer error atomicity. -/
theorem applyEliminatePlayer_error_eq (pid reason : String) (g : GameState) (msg : String)
    (h : (applyEliminatePlayer pid reason g).1 = Except.error msg) :
    (applyEliminatePlayer pid reason g).2 = g := by
  simp only [applyEliminatePlayer] at h ⊢
  revert h
  repeat' split
  all_goals intro h
  all_goals first
    | exact Except.noConfusion h
    | (rename_i g2 heq
       have h1 := congrArg Prod.fst heq
       have h2 := eliminatePlayer_none_eq g pid h1
       rw [heq] at h2
       exact h2)

/-- C10: whenever Apply returns an error, for every command kind, the game
state it hands back is exactly the state it was given: a rejected intent
is a no-op on players, liveness, votes, night-target slots, the previous
doctor target, the sheriff bullet flag, round, phase, and winner. -/
theorem apply_error_is_noop (c : Command) (g : GameState) (msg : String)
    (h : (applyCmd c g).1 = Except.error msg) : (applyCmd c g).2 = g := by
  cases c with
  | addPlayer gen maxP =>
      exact applyAddPlayer_error_eq gen maxP g msg h
  | startGame minP maxP shuffled roleSeq =>
      exact applyStartGame_error_eq minP maxP shuffled roleSeq g msg h
  | vote voterID targetID =>
      exact applyVote_error_eq voterID targetID g msg h
  | chat senderID message =>
      exact applyChat_error_eq senderID message g msg h
  | mafiaChat senderID message =>
      exact applyMafiaChat_error_eq senderID message g msg h
  | nightAction role actorID targetID =>
      exact applyNightAction_error_eq role actorID targetID g msg h
  | phaseChange newPhase =>
      exact absurd h (fun hh => applyPhaseChange_never_errors newPhase g msg hh)
  | eliminatePlayer playerID reason =>
      exact applyEliminatePlayer_error_eq playerID reason g msg h

/-- Witness for C10: voting outside the Voting phase errors and leaves a
fresh game state unchanged. -/
theorem apply_error_is_noop_witness :
    (applyCmd (Command.vote "a" "b") (NewGameState "game-w10")).2 =
      NewGameState "game-w10" :=
  apply_error_is_noop (Command.vote "a" "b") (NewGameState "game-w10")
    "cannot vote in this phase" (by rfl)

/-- C1 (refuted by the code): in a concrete six-player game the doctor
saves p1 during the Night of round one; after the normal Night to Day,
Day to Voting, Voting to Night sequence the previous-doctor-target slot
has been overwritten with the empty string by the intermediate
ResetPhaseData calls, so the doctor action targeting p1 again in round
two is accepted: Apply succeeds and the doctor-target slot holds p1,
where the claim requires rejection with an empty slot. -/
theorem doctor_consecutive_save_accepted :
    (let afterSave := applyAll (NewGameState "game-c1")
        [Command.addPlayer (Option.some ("p1", "Gilbert McDonald")) 12,
         Command.addPlayer (Option.some ("p2", "Dorothy Bird")) 12,
         Command.addPlayer (Option.some ("p3", "Ernest Preston")) 12,
         Command.addPlayer (Option.some ("p4", "Vincent Schultz")) 12,
         Command.addPlayer (Option.some ("p5", "Joanne Sloan")) 12,
         Command.addPlayer (Option.some ("p6", "Lana Moran")) 12,
         Command.startGame 6 12 ["p1", "p2", "p3", "p4", "p5", "p6"]
           [Role.villager, Role.mafia, Role.doctor, Role.sheriff],
         Command.nightAction "doctor" "p5" "p1"]
     let afterCycle := applyAll afterSave
        [Command.phaseChange Phase.day,
         Command.phaseChange Phase.voting,
         Command.phaseChange Phase.night]
     let secondSave := applyNightAction "doctor" "p5" "p1" afterCycle
     afterSave.doctorTarget = "p1" ∧
     afterSave.round = 1 ∧
     afterCycle.round = 2 ∧
     afterCycle.phase = Phase.night ∧
     afterCycle.previousDoctorTarget = "" ∧
     exceptOk secondSave.1 = true ∧
     secondSave.2.doctorTarget = "p1") := by
  decide

/-- C3 counterexample: from a fresh game state, four AddPlayer commands, a
successful StartGame and a PhaseChange to Ended are a command sequence
that reaches a state with Phase equal to Ended while Winner is still
None, because the win re-evaluation finds one alive mafia against three
alive villagers and leaves the winner untouched. -/
theorem winner_iff_ended_counterexample :
    (let g := applyAll (NewGameState "game-c3")
        [Command.addPlayer (Option.some ("p1", "Gilbert McDonald")) 12,
         Command.addPlayer (Option.some ("p2", "Dorothy Bird")) 12,
         Command.addPlayer (Option.some ("p3", "Ernest Preston")) 12,
         Command.addPlayer (Option.some ("p4", "Vincent Schultz")) 12,
         Command.startGame 4 12 ["p1", "p2", "p3", "p4"]
           [Role.villager, Role.mafia, Role.doctor, Role.sheriff],
         Command.phaseChange Phase.ended]
     g.phase = Phase.ended ∧ g.winner = Winner.none ∧
       ¬ (g.winner ≠ Winner.none ↔ g.phase = Phase.ended)) := by
  decide

theorem isGameOver_true_out (g : GameState) (h : g.isGameOver.1 = true) :
    g.isGameOver.2.winner ≠ Winner.none ∧ g.isGameOver.2.phase = Phase.ended := by
  simp only [GameState.isGameOver] at *
  repeat' split at h
  all_goals simp_all

theorem isGameOver_false_eq (g : GameState) (h : g.isGameOver.1 = false) :
    g.isGameOver.2 = g := by
  simp only [GameState.isGameOver] at h ⊢
  revert h
  repeat' split
  all_goals intro h
  all_goals simp_all

theorem eliminatePlayer_winner (g : GameState) (pid : String) :
    ((g.eliminatePlayer pid).2).winner = g.winner := by
  simp only [GameState.eliminatePlayer]
  repeat' split
  all_goals simp

theorem eliminatePlayer_phase (g : GameState) (pid : String) :
    ((g.eliminatePlayer pid).2).phase = g.phase := by
  simp only [GameState.eliminatePlayer]
  repeat' split
  all_goals simp

theorem eliminatePlayer_round (g : GameState) (pid : String) :
    ((g.eliminatePlayer pid).2).round = g.round := by
  simp only [GameState.eliminatePlayer]
  repeat' split
  all_goals simp

theorem eliminatePlayer_bullet (g : GameState) (pid : String) :
    ((g.eliminatePlayer pid).2).sheriffUsedBullet = g.sheriffUsedBullet := by
  simp only [GameState.eliminatePlayer]
  repeat' split
  all_goals simp

theorem registerVote_wp_eq (g : GameState) (v t : String) (b : Bool) (g2 : GameState)
    (heq : g.registerVote v t = (b, g2)) :
    g2.winner = g.winner ∧ g2.phase = g.phase ∧
      g2.sheriffUsedBullet = g.sheriffUsedBullet := by
  have h2 : ((g.registerVote v t).2).winner = g.winner ∧
      ((g.registerVote v t).2).phase = g.phase ∧
      ((g.registerVote v t).2).sheriffUsedBullet = g.sheriffUsedBullet := by
    simp only [GameState.registerVote]
    repeat' split
    all_goals simp
  rw [heq] at h2
  exact h2

theorem setNightAction_wp_eq (g : GameState) (r : Role) (a t : String) (b : Bool)
    (g2 : GameState) (heq : g.setNightAction r a t = (b, g2)) :
    g2.winner = g.winner ∧ g2.phase = g.phase := by
  have h2 : ((g.setNightAction r a t).2).winner = g.winner ∧
      ((g.setNightAction r a t).2).phase = g.phase := by
    simp only [GameState.setNightAction]
    repeat' split
    all_goals simp
  rw [heq] at h2
  exact h2

theorem inv_transfer {g g2 : GameState} (hw : g2.winner = g.winner)
    (hp : g2.phase = g.phase) (h : WinnerEndedInv g) : WinnerEndedInv g2 := by
  unfold WinnerEndedInv at *
  rw [hw, hp]
  exact h

theorem applyAddPlayer_inv (gen : Option (String × String)) (maxP : Nat)
    (g : GameState) (h : WinnerEndedInv g) :
    WinnerEndedInv (applyAddPlayer gen maxP g).2 := by
  have hwp : ((applyAddPlayer gen maxP g).2).winner = g.winner ∧
      ((applyAddPlayer gen maxP g).2).phase = g.phase := by
    simp only [applyAddPlayer]
    repeat' split
    all_goals simp
  exact inv_transfer hwp.1 hwp.2 h

theorem applyVote_inv (v t : String) (g : GameState) (h : WinnerEndedInv g) :
    WinnerEndedInv (applyVote v t g).2 := by
  have hwp : ((applyVote v t g).2).winner = g.winner ∧
      ((applyVote v t g).2).phase = g.phase := by
    simp only [applyVote]
    repeat' split
    all_goals first
      | exact ⟨rfl, rfl⟩
      | (rename_i g2 heq
         exact ⟨(registerVote_wp_eq g v t _ g2 heq).1, (registerVote_wp_eq g v t _ g2 heq).2.1⟩)
  exact inv_transfer hwp.1 hwp.2 h

theorem applyChat_state_eq (s m : String) (g : GameState) : (applyChat s m g).2 = g := by
  simp only [applyChat]
  repeat' split
  all_goals rfl

theorem applyMafiaChat_state_eq (s m : String) (g : GameState) :
    (applyMafiaChat s m g).2 = g := by
  simp only [applyMafiaChat]
  repeat' split
  all_goals rfl

theorem applyNightAction_inv (r a t : String) (g : GameState) (h : WinnerEndedInv g) :
    WinnerEndedInv (applyNightAction r a t g).2 := by
  have hwp : ((applyNightAction r a t g).2).winner = g.winner ∧
      ((applyNightAction r a t g).2).phase = g.phase := by
    simp only [applyNightAction]
    repeat' split
    all_goals first
      | exact ⟨rfl, rfl⟩
      | (rename_i g2 heq
         exact setNightAction_wp_eq g _ a t _ g2 heq)
  exact inv_transfer hwp.1 hwp.2 h

theorem applyStartGame_inv (minP maxP : Nat) (sh : List String) (rs : List Role)
    (g : GameState) (h : WinnerEndedInv g) :
    WinnerEndedInv (applyStartGame minP maxP sh rs g).2 := by
  simp only [applyStartGame]
  split
  · exact h
  · split
    · exact h
    · rename_i hphase hcan
      have hwait : g.phase = Phase.waiting := by
        by_contra hc
        exact hphase (by simp [hc])
      have hw : g.winner = Winner.none := by
        by_contra hwc
        have := h.mp hwc
        rw [hwait] at this
        exact Phase.noConfusion this
      unfold WinnerEndedInv
      simp [GameState.assignRolesToPlayers, hw]

theorem applyEliminatePlayer_inv (pid reason : String) (g : GameState)
    (h : WinnerEndedInv g) : WinnerEndedInv (applyEliminatePlayer pid reason g).2 := by
  simp only [applyEliminatePlayer]
  split
  · rename_i g2 heq
    have h1 := congrArg Prod.fst heq
    have h2 := eliminatePlayer_none_eq g pid h1
    rw [heq] at h2
    unfold WinnerEndedInv at *
    rw [h2]
    exact h
  · rename_i p g2 heq
    show WinnerEndedInv g2.isGameOver.2
    cases hov : g2.isGameOver.1 with
    | true =>
        have hout := isGameOver_true_out g2 hov
        unfold WinnerEndedInv
        simp [hout.1, hout.2]
    | false =>
        have heq2 := isGameOver_false_eq g2 hov
        rw [heq2]
        have hwp : g2.winner = g.winner ∧ g2.phase = g.phase := by
          have ha := eliminatePlayer_winner g pid
          have hb := eliminatePlayer_phase g pid
          rw [heq] at ha hb
          exact ⟨ha, hb⟩
        exact inv_transfer hwp.1 hwp.2 h

theorem applyPhaseChange_decomp (p : Phase) (g : GameState) :
    ∃ g4 : GameState, (applyPhaseChange p g).2 = g4.isGameOver.2 ∧
      g4.winner = g.winner ∧ g4.phase = p ∧
      g4.sheriffUsedBullet = g.sheriffUsedBullet ∧
      g4.round = (if p = Phase.night then g.round + 1 else g.round) := by
  simp only [applyPhaseChange]
  refine ⟨_, rfl, ?_, ?_, ?_, ?_⟩
  all_goals repeat' split
  all_goals simp [GameState.resetPhaseData, eliminatePlayer_winner, eliminatePlayer_phase,
    eliminatePlayer_round, eliminatePlayer_bullet]

theorem applyPhaseChange_inv (p : Phase) (g : GameState)
    (hp : p = Phase.night ∨ p = Phase.day ∨ p = Phase.voting)
    (hne : g.phase ≠ Phase.ended) (h : WinnerEndedInv g) :
    WinnerEndedInv (applyPhaseChange p g).2 := by
  have hw : g.winner = Winner.none := by
    by_contra hwc
    exact hne (h.mp hwc)
  obtain ⟨g4, hdec, hgw, hgp, _, _⟩ := applyPhaseChange_decomp p g
  rw [hdec]
  cases hov : g4.isGameOver.1 with
  | true =>
      have hout := isGameOver_true_out g4 hov
      unfold WinnerEndedInv
      simp [hout.1, hout.2]
  | false =>
      have heq2 := isGameOver_false_eq g4 hov
      rw [heq2]
      unfold WinnerEndedInv
      rw [hgw, hgp, hw]
      simp
      rcases hp with hp | hp | hp
      all_goals rw [hp]
      all_goals intro hcon
      all_goals exact Phase.noConfusion hcon

theorem applyCmd_inv (c : Command) (g : GameState) (hc : allowedCmd g c)
    (h : WinnerEndedInv g) : WinnerEndedInv (applyCmd c g).2 := by
  cases c with
  | addPlayer gen maxP => exact applyAddPlayer_inv gen maxP g h
  | startGame minP maxP sh rs => exact applyStartGame_inv minP maxP sh rs g h
  | vote v t => exact applyVote_inv v t g h
  | chat s m =>
      show WinnerEndedInv (applyChat s m g).2
      rw [applyChat_state_eq]
      exact h
  | mafiaChat s m =>
      show WinnerEndedInv (applyMafiaChat s m g).2
      rw [applyMafiaChat_state_eq]
      exact h
  | nightAction r a t => exact applyNightAction_inv r a t g h
  | phaseChange p =>
      obtain ⟨hp, hne⟩ := hc
      exact applyPhaseChange_inv p g hp hne h
  | eliminatePlayer pid reason => exact applyEliminatePlayer_inv pid reason g h

theorem applyAll_inv (cmds : List Command) (g : GameState)
    (hrun : AllowedRun g cmds) (h : WinnerEndedInv g) :
    WinnerEndedInv (applyAll g cmds) := by
  induction cmds generalizing g with
  | nil => exact h
  | cons c cs ih =>
      obtain ⟨hc, hrest⟩ := hrun
      exact ih (applyCmd c g).2 hrest (applyCmd_inv c g hc h)

/-- C3 (amended): in every state reachable from a fresh game state by a
command sequence whose PhaseChange commands target only the cycle phases
Night, Day and Voting and never fire on an already ended game (exactly
the PhaseChange commands the engine timer produces, since no timer is
armed for Waiting or Ended), Winner differs from None exactly when Phase
equals Ended. -/
theorem winner_iff_ended_reachable (gid : String) (cmds : List Command)
    (h : AllowedRun (NewGameState gid) cmds) :
    ((applyAll (NewGameState gid) cmds).winner ≠ Winner.none ↔
      (applyAll (NewGameState gid) cmds).phase = Phase.ended) :=
  applyAll_inv cmds (NewGameState gid) h
    (by unfold WinnerEndedInv; simp [NewGameState])

/-- Witness for the amended C3: a two-command engine-style run (add one
player, timer-driven transition to Night) keeps the invariant. -/
theorem winner_iff_ended_reachable_witness :
    ((applyAll (NewGameState "game-w3")
        [Command.addPlayer (Option.some ("p1", "Gilbert McDonald")) 12,
         Command.phaseChange Phase.night]).winner ≠ Winner.none ↔
      (applyAll (NewGameState "game-w3")
        [Command.addPlayer (Option.some ("p1", "Gilbert McDonald")) 12,
         Command.phaseChange Phase.night]).phase = Phase.ended) :=
  winner_iff_ended_reachable "game-w3"
    [Command.addPlayer (Option.some ("p1", "Gilbert McDonald")) 12,
     Command.phaseChange Phase.night]
    ⟨trivial, ⟨Or.inl rfl, by decide⟩, trivial⟩

theorem setNightAction_bullet_mono (g : GameState) (r : Role) (a t : String)
    (h : g.sheriffUsedBullet = true) :
    ((g.setNightAction r a t).2).sheriffUsedBullet = true := by
  simp only [GameState.setNightAction]
  repeat' split
  all_goals simp [h]

theorem resetPhaseData_bullet (g : GameState) :
    (g.resetPhaseData).sheriffUsedBullet = g.sheriffUsedBullet := rfl

theorem isGameOver_bullet (g : GameState) :
    (g.isGameOver.2).sheriffUsedBullet = g.sheriffUsedBullet := by
  simp only [GameState.isGameOver]
  repeat' split
  all_goals simp

theorem sheriff_rejected_when_bullet_used (g : GameState) (a t : String)
    (h : g.sheriffUsedBullet = true) :
    g.setNightAction Role.sheriff a t = (false, g) := by
  simp only [GameState.setNightAction]
  repeat' split
  all_goals simp_all [Role.hasNightAction]

theorem setNightAction_sheriff_success (g : GameState) (a t : String) (g2 : GameState)
    (heq : g.setNightAction Role.sheriff a t = (true, g2)) :
    g2.sheriffUsedBullet = true ∧ g.sheriffUsedBullet = false := by
  simp only [GameState.setNightAction] at heq
  repeat' split at heq
  all_goals simp_all
  rw [← heq]

theorem roleStr_sheriff (r : Role) : r.toStr = "sheriff" ↔ r = Role.sheriff := by
  cases r
  all_goals simp [Role.toStr]

theorem applyCmd_bullet_mono (c : Command) (g : GameState)
    (h : g.sheriffUsedBullet = true) :
    ((applyCmd c g).2).sheriffUsedBullet = true := by
  cases c with
  | addPlayer gen maxP =>
      simp only [applyCmd, applyAddPlayer]
      repeat' split
      all_goals simp [h]
  | startGame minP maxP sh rs =>
      simp only [applyCmd, applyStartGame]
      repeat' split
      all_goals simp [GameState.assignRolesToPlayers, h]
  | vote v t =>
      simp only [applyCmd, applyVote]
      repeat' split
      all_goals first
        | exact h
        | (rename_i g2 heq
           have h2 := (registerVote_wp_eq g v t _ g2 heq).2.2
           simp only []
           rw [h2]
           exact h)
  | chat s m =>
      show ((applyChat s m g).2).sheriffUsedBullet = true
      rw [applyChat_state_eq]
      exact h
  | mafiaChat s m =>
      show ((applyMafiaChat s m g).2).sheriffUsedBullet = true
      rw [applyMafiaChat_state_eq]
      exact h
  | nightAction r a t =>
      simp only [applyCmd, applyNightAction]
      split
      · exact h
      split
      · exact h
      rename_i actor heqActor
      split
      · exact h
      split
      · exact h
      split
      all_goals rename_i g2 heq
      all_goals have h3 := setNightAction_bullet_mono g actor.role a t h
      all_goals rw [heq] at h3
      all_goals exact h3
  | phaseChange p =>
      obtain ⟨g4, hdec, _, _, hb, _⟩ := applyPhaseChange_decomp p g
      show ((applyPhaseChange p g).2).sheriffUsedBullet = true
      rw [hdec, isGameOver_bullet, hb]
      exact h
  | eliminatePlayer pid reason =>
      simp only [applyCmd, applyEliminatePlayer]
      split
      · rename_i g2 heq
        have h2 := congrArg Prod.snd heq
        have h3 := eliminatePlayer_bullet g pid
        rw [h2] at h3
        have h4 : g2.sheriffUsedBullet = g.sheriffUsedBullet := h3
        show g2.sheriffUsedBullet = true
        rw [h4]
        exact h
      · rename_i p g2 heq
        have h2 := congrArg Prod.snd heq
        have h3 := eliminatePlayer_bullet g pid
        rw [h2] at h3
        have h4 : g2.sheriffUsedBullet = g.sheriffUsedBullet := h3
        show (g2.isGameOver.2).sheriffUsedBullet = true
        rw [isGameOver_bullet, h4]
        exact h

theorem applyAll_bullet_mono (cmds : List Command) (g : GameState)
    (h : g.sheriffUsedBullet = true) :
    (applyAll g cmds).sheriffUsedBullet = true := by
  induction cmds generalizing g with
  | nil => exact h
  | cons c cs ih => exact ih (applyCmd c g).2 (applyCmd_bullet_mono c g h)

theorem applyNightAction_sheriff_success (a t : String) (g : GameState)
    (h : exceptOk (applyNightAction "sheriff" a t g).1 = true) :
    ((applyNightAction "sheriff" a t g).2).sheriffUsedBullet = true ∧
      g.sheriffUsedBullet = false := by
  simp only [applyNightAction] at h ⊢
  revert h
  split
  · intro h
    exact absurd h (by simp [exceptOk])
  split
  · intro h
    exact absurd h (by simp [exceptOk])
  rename_i actor heqActor
  split
  · intro h
    exact absurd h (by simp [exceptOk])
  split
  · intro h
    exact absurd h (by simp [exceptOk])
  rename_i halive hrole
  have hsher : actor.role = Role.sheriff := by
    rw [← roleStr_sheriff]
    by_contra hc
    exact hrole hc
  split
  · intro h
    exact absurd h (by simp [exceptOk])
  · rename_i g2 heq
    intro h
    rw [hsher] at heq
    have hs := setNightAction_sheriff_success g a t g2 heq
    exact ⟨hs.1, hs.2⟩

theorem applyNightAction_sheriff_rejected (a t : String) (g : GameState)
    (h : g.sheriffUsedBullet = true) :
    exceptOk (applyNightAction "sheriff" a t g).1 = false := by
  simp only [applyNightAction]
  split
  · rfl
  split
  · rfl
  rename_i actor heqActor
  split
  · rfl
  split
  · rfl
  rename_i halive hrole
  have hsher : actor.role = Role.sheriff := by
    rw [← roleStr_sheriff]
    by_contra hc
    exact hrole hc
  split
  · rfl
  · rename_i g2 heq
    rw [hsher] at heq
    rw [sheriff_rejected_when_bullet_used g a t h] at heq
    exact absurd (congrArg Prod.fst heq) (by simp)

theorem sheriffSuccesses_zero (cmds : List Command) (g : GameState)
    (h : g.sheriffUsedBullet = true) : sheriffSuccesses g cmds = 0 := by
  induction cmds generalizing g with
  | nil => rfl
  | cons c cs ih =>
      have htail : sheriffSuccesses (applyCmd c g).2 cs = 0 :=
        ih (applyCmd c g).2 (applyCmd_bullet_mono c g h)
      cases c with
      | nightAction r a t =>
          simp only [sheriffSuccesses, htail]
          by_cases hr : r = "sheriff"
          · subst hr
            simp [applyNightAction_sheriff_rejected a t g h]
          · simp [hr]
      | addPlayer gen maxP => simp only [sheriffSuccesses, htail]
      | startGame minP maxP sh rs => simp only [sheriffSuccesses, htail]
      | vote v t => simp only [sheriffSuccesses, htail]
      | chat s m => simp only [sheriffSuccesses, htail]
      | mafiaChat s m => simp only [sheriffSuccesses, htail]
      | phaseChange p => simp only [sheriffSuccesses, htail]
      | eliminatePlayer pid reason => simp only [sheriffSuccesses, htail]

theorem sheriffSuccesses_le_one (cmds : List Command) (g : GameState) :
    sheriffSuccesses g cmds ≤ 1 := by
  induction cmds generalizing g with
  | nil => exact Nat.zero_le 1
  | cons c cs ih =>
      cases c with
      | nightAction r a t =>
          simp only [sheriffSuccesses]
          by_cases hcond : (r = "sheriff" && exceptOk (applyNightAction r a t g).1) = true
          · have hr : r = "sheriff" := by
              have := (Bool.and_eq_true _ _).mp hcond
              exact of_decide_eq_true this.1
            subst hr
            have hok : exceptOk (applyNightAction "sheriff" a t g).1 = true := by
              have := (Bool.and_eq_true _ _).mp hcond
              exact this.2
            have hbul := (applyNightAction_sheriff_success a t g hok).1
            have htail : sheriffSuccesses (applyCmd (Command.nightAction "sheriff" a t) g).2 cs = 0 := by
              apply sheriffSuccesses_zero
              exact hbul
            rw [hcond]
            simp [htail]
          · have hcond2 : (r = "sheriff" && exceptOk (applyNightAction r a t g).1) = false :=
              Bool.not_eq_true _ ▸ (by simpa using hcond)
            rw [hcond2]
            simpa using ih (applyCmd (Command.nightAction r a t) g).2
      | addPlayer gen maxP => simpa [sheriffSuccesses] using ih (applyCmd (Command.addPlayer gen maxP) g).2
      | startGame minP maxP sh rs => simpa [sheriffSuccesses] using ih (applyCmd (Command.startGame minP maxP sh rs) g).2
      | vote v t => simpa [sheriffSuccesses] using ih (applyCmd (Command.vote v t) g).2
      | chat s m => simpa [sheriffSuccesses] using ih (applyCmd (Command.chat s m) g).2
      | mafiaChat s m => simpa [sheriffSuccesses] using ih (applyCmd (Command.mafiaChat s m) g).2
      | phaseChange p => simpa [sheriffSuccesses] using ih (applyCmd (Command.phaseChange p) g).2
      | eliminatePlayer pid reason => simpa [sheriffSuccesses] using ih (applyCmd (Command.eliminatePlayer pid reason) g).2

/-- C7: the sheriff bullet flag is monotone, it only ever moves from false
to true: once true it stays true across any command sequence, ResetPhaseData
preserves it verbatim, every sheriff night action attempted while it is
true is rejected with the state unchanged regardless of target, and along
any command sequence at most one sheriff night action ever succeeds. -/
theorem sheriff_single_bullet :
    (∀ (cmds : List Command) (g : GameState), g.sheriffUsedBullet = true →
        (applyAll g cmds).sheriffUsedBullet = true) ∧
    (∀ g : GameState, (g.resetPhaseData).sheriffUsedBullet = g.sheriffUsedBullet) ∧
    (∀ (g : GameState) (a t : String), g.sheriffUsedBullet = true →
        g.setNightAction Role.sheriff a t = (false, g)) ∧
    (∀ (cmds : List Command) (g : GameState), sheriffSuccesses g cmds ≤ 1) :=
  ⟨applyAll_bullet_mono, resetPhaseData_bullet,
   sheriff_rejected_when_bullet_used, sheriffSuccesses_le_one⟩

/-- Witness for C7: on a state whose bullet is already spent, a sheriff
action on a fresh target is rejected and the state survives a phase change
with the flag still set. -/
theorem sheriff_single_bullet_witness :
    (let g0 : GameState :=
      { NewGameState "game-w7" with sheriffUsedBullet := true }
     g0.setNightAction Role.sheriff "a" "b" = (false, g0) ∧
       (applyAll g0 [Command.phaseChange Phase.day]).sheriffUsedBullet = true ∧
       sheriffSuccesses g0 [Command.nightAction "sheriff" "a" "b"] ≤ 1) :=
  ⟨sheriff_single_bullet.2.2.1 _ "a" "b" rfl,
   sheriff_single_bullet.1 [Command.phaseChange Phase.day] _ rfl,
   sheriff_single_bullet.2.2.2 [Command.nightAction "sheriff" "a" "b"] _⟩

/-- C9: the codec round-trips every consumer-facing inbound event kind,
Deserialize of Marshal is the identity for all_chat, mafia_chat,
vote_submitted, night_action and player_thoughts events carrying their
own type string; and Deserialize rejects any value whose type string is
one of the five engine-emitted-only kinds, as well as any value whose
type string is outside the closed ten-string set. -/
theorem codec_round_trip_and_errors :
    (∀ (gid : String) (ts : Int) (msg snd : String),
       Deserialize (marshalAllChatMessage ⟨⟨gid, ts, TypeAllChatMessage⟩, msg, snd⟩) =
         Except.ok (InboundEvent.allChatMsg ⟨⟨gid, ts, TypeAllChatMessage⟩, msg, snd⟩)) ∧
    (∀ (gid : String) (ts : Int) (msg snd : String),
       Deserialize (marshalMafiaChatMessage ⟨⟨gid, ts, TypeMafiaChatMessage⟩, msg, snd⟩) =
         Except.ok (InboundEvent.mafiaChatMsg ⟨⟨gid, ts, TypeMafiaChatMessage⟩, msg, snd⟩)) ∧
    (∀ (gid : String) (ts : Int) (voter target : String),
       Deserialize (marshalVoteSubmitted ⟨⟨gid, ts, TypeVoteSubmitted⟩, voter, target⟩) =
         Except.ok (InboundEvent.voteSubmittedEv ⟨⟨gid, ts, TypeVoteSubmitted⟩, voter, target⟩)) ∧
    (∀ (gid : String) (ts : Int) (role actor target : String),
       Deserialize (marshalNightAction ⟨⟨gid, ts, TypeNightAction⟩, role, actor, target⟩) =
         Except.ok (InboundEvent.nightActionEv ⟨⟨gid, ts, TypeNightAction⟩, role, actor, target⟩)) ∧
    (∀ (gid : String) (ts : Int) (thought snd : String),
       Deserialize (marshalPlayerThoughts ⟨⟨gid, ts, TypePlayerThoughts⟩, thought, snd⟩) =
         Except.ok (InboundEvent.playerThoughtsEv ⟨⟨gid, ts, TypePlayerThoughts⟩, thought, snd⟩)) ∧
    (∀ (j : Json) (b : BaseEvent), unmarshalBase j = Except.ok b →
       (b.etype = TypeGameStarted ∨ b.etype = TypePhaseChanged ∨
        b.etype = TypePlayerEliminated ∨ b.etype = TypeGameEnded ∨
        b.etype = TypeRoleAssigned) →
       Deserialize j = Except.error "engine does not consume event type") ∧
    (∀ (j : Json) (b : BaseEvent), unmarshalBase j = Except.ok b →
       b.etype ∉ ([TypeAllChatMessage, TypeMafiaChatMessage, TypeVoteSubmitted,
         TypeNightAction, TypePlayerThoughts, TypeGameStarted, TypePhaseChanged,
         TypePlayerEliminated, TypeGameEnded, TypeRoleAssigned] : List String) →
       Deserialize j = Except.error "unknown event type") := by
  refine ⟨?_, ?_, ?_, ?_, ?_, ?_, ?_⟩
  · intro gid ts msg snd
    rfl
  · intro gid ts msg snd
    rfl
  · intro gid ts voter target
    rfl
  · intro gid ts role actor target
    rfl
  · intro gid ts thought snd
    rfl
  · intro j b hbase hty
    rcases hty with h | h | h | h | h
    all_goals simp [Deserialize, hbase, h, bind, Except.bind, TypeGameStarted,
      TypePhaseChanged, TypePlayerEliminated, TypeGameEnded, TypeRoleAssigned,
      TypeAllChatMessage, TypeMafiaChatMessage, TypeVoteSubmitted, TypeNightAction,
      TypePlayerThoughts]
  · intro j b hbase hty
    simp only [List.mem_cons, List.mem_singleton] at hty
    push_neg at hty
    obtain ⟨h1, h2, h3, h4, h5, h6, h7, h8, h9, h10, -⟩ := hty
    simp [Deserialize, hbase, bind, Except.bind, h1, h2, h3, h4, h5, h6, h7, h8, h9, h10]

/-- Witness for C9: a value carrying the engine-emitted type string
game_started parses a header successfully and is rejected by Deserialize. -/
theorem codec_round_trip_and_errors_witness :
    Deserialize (Json.jobj [("game_id", Json.jstr "g"), ("timestamp", Json.jnum 1),
        ("type", Json.jstr "game_started")]) =
      Except.error "engine does not consume event type" :=
  codec_round_trip_and_errors.2.2.2.2.2.1
    (Json.jobj [("game_id", Json.jstr "g"), ("timestamp", Json.jnum 1),
        ("type", Json.jstr "game_started")])
    { gameID := "g", timestamp := 1, etype := "game_started" }
    (by rfl) (Or.inl rfl)

theorem isGameOver_players (g : GameState) : (g.isGameOver.2).players = g.players := by
  simp only [GameState.isGameOver]
  repeat' split
  all_goals simp

theorem isGameOver_votes (g : GameState) : (g.isGameOver.2).votes = g.votes := by
  simp only [GameState.isGameOver]
  repeat' split
  all_goals simp

theorem isGameOver_mafiaTarget (g : GameState) :
    (g.isGameOver.2).mafiaTarget = g.mafiaTarget := by
  simp only [GameState.isGameOver]
  repeat' split
  all_goals simp

theorem isGameOver_doctorTarget (g : GameState) :
    (g.isGameOver.2).doctorTarget = g.doctorTarget := by
  simp only [GameState.isGameOver]
  repeat' split
  all_goals simp

theorem isGameOver_sheriffTarget (g : GameState) :
    (g.isGameOver.2).sheriffTarget = g.sheriffTarget := by
  simp only [GameState.isGameOver]
  repeat' split
  all_goals simp

theorem isGameOver_round (g : GameState) : (g.isGameOver.2).round = g.round := by
  simp only [GameState.isGameOver]
  repeat' split
  all_goals simp

theorem isGameOver_idem (g : GameState) :
    ((g.isGameOver.2).isGameOver).1 = g.isGameOver.1 := by
  have hm : (g.isGameOver.2).mafiaAlive = g.mafiaAlive := by
    unfold GameState.mafiaAlive
    rw [isGameOver_players]
  have hv : (g.isGameOver.2).villageAlive = g.villageAlive := by
    unfold GameState.villageAlive
    rw [isGameOver_players]
  by_cases h1 : g.mafiaAlive = 0
  · conv_rhs => rw [GameState.isGameOver]
    rw [GameState.isGameOver, hm, hv]
    simp [h1]
  · by_cases h2 : g.villageAlive ≤ g.mafiaAlive
    · conv_rhs => rw [GameState.isGameOver]
      rw [GameState.isGameOver, hm, hv]
      simp [h1, h2]
    · conv_rhs => rw [GameState.isGameOver]
      rw [GameState.isGameOver, hm, hv]
      simp [h1, h2]

theorem applyPhaseChange_full (p : Phase) (g : GameState) :
    (let killed := match g.phase with
       | Phase.night => g.resolveNightActions
       | Phase.voting => g.resolveVotingPhase
       | _ => ""
     let reason := if g.phase = Phase.night then "killed_by_mafia" else "voted_out"
     ∃ g4 : GameState,
       (applyPhaseChange p g).2 = g4.isGameOver.2 ∧
       (applyPhaseChange p g).1 = Except.ok
         (GameEvent.phaseChanged (g4.isGameOver.2).round g.phase.toStr p.toStr ::
           ((if killed ≠ "" then [GameEvent.playerEliminated killed reason] else []) ++
            (if g4.isGameOver.1 = true then
               [GameEvent.gameEnded (g4.isGameOver.2).winner.toStr] else []))) ∧
       g4.votes = [] ∧ g4.mafiaTarget = "" ∧ g4.doctorTarget = "" ∧
       g4.sheriffTarget = "" ∧
       g4.round = (if p = Phase.night then g.round + 1 else g.round) ∧
       g4.phase = p ∧
       g4.players =
         (if killed = "" then g.players else ((g.eliminatePlayer killed).2).players) ∧
       (g.phase ≠ Phase.night → g.phase ≠ Phase.voting → g4.players = g.players)) := by
  simp only [applyPhaseChange]
  by_cases hp2 : p = Phase.night
  all_goals cases hph : g.phase
  all_goals try by_cases hk : g.resolveNightActions = ""
  all_goals try by_cases hk2 : g.resolveVotingPhase = ""
  all_goals refine ⟨_, rfl, ?_, ?_, ?_, ?_, ?_, ?_, ?_, ?_, ?_⟩
  all_goals simp [GameState.resetPhaseData, eliminatePlayer_phase, eliminatePlayer_round,
    hph, hp2, Phase.toStr]
  all_goals simp_all [eliminatePlayer_phase, eliminatePlayer_round, Phase.toStr]

theorem applyStartGame_ok_round_one (minP maxP : Nat) (sh : List String)
    (rs : List Role) (g : GameState) (effs : List GameEvent)
    (h : (applyStartGame minP maxP sh rs g).1 = Except.ok effs) :
    (applyStartGame minP maxP sh rs g).2.round = 1 ∧
      (applyStartGame minP maxP sh rs g).2.phase = Phase.night := by
  simp only [applyStartGame] at h ⊢
  revert h
  repeat' split
  all_goals intro h
  all_goals first | exact Except.noConfusion h | exact ⟨rfl, rfl⟩

theorem alLookup_alUpdate {α : Type} (l : List (String × α)) (k : String)
    (f : α → α) : alLookup (alUpdate l k f) k = (alLookup l k).map f := by
  induction l with
  | nil => rfl
  | cons e rest ih =>
      obtain ⟨k2, v⟩ := e
      by_cases h : k2 = k
      all_goals simp [alLookup, alUpdate, h, ih]

theorem eliminated_alive_false (g : GameState) (pid : String) (pl : Player)
    (h : ((g.eliminatePlayer pid).2).getPlayer pid = Option.some pl) :
    pl.alive = false := by
  simp only [GameState.eliminatePlayer, GameState.getPlayer] at h
  cases hl : alLookup g.players pid with
  | none => simp [hl] at h
  | some p0 =>
      simp only [hl] at h
      by_cases ha : p0.alive
      · simp [ha] at h
        rw [alLookup_alUpdate, hl] at h
        simp only [Option.map_some'] at h
        have h2 := Option.some.inj h
        rw [← h2]
      · simp only [Bool.not_eq_true] at ha
        simp [ha] at h
        rw [hl] at h
        have h2 := Option.some.inj h
        rw [← h2]
        exact ha

/-- C6: PhaseChange never rejects; it resolves the outgoing phase only
when that phase is Night (night kill) or Voting (vote elimination) and
marks the resolved victim dead in the players map, clears the votes map
and the three night-target slots, sets the phase to the requested one
(overridden to Ended exactly when the win re-evaluation ends the game),
increments the round exactly when the new phase is Night, and returns
the effect list in the order PhaseChanged always, then PlayerEliminated
exactly when the resolution named a victim, then GameEnded exactly when
the win check holds on the resulting state; and the Waiting-to-Night
transition of StartGame sets the round to one rather than incrementing
it. -/
theorem phaseChange_semantics (p : Phase) (g : GameState) :
    (let killed := match g.phase with
       | Phase.night => g.resolveNightActions
       | Phase.voting => g.resolveVotingPhase
       | _ => ""
     let reason := if g.phase = Phase.night then "killed_by_mafia" else "voted_out"
     ((applyPhaseChange p g).2.votes = [] ∧
       (applyPhaseChange p g).2.mafiaTarget = "" ∧
       (applyPhaseChange p g).2.doctorTarget = "" ∧
       (applyPhaseChange p g).2.sheriffTarget = "") ∧
     (applyPhaseChange p g).2.round =
       (if p = Phase.night then g.round + 1 else g.round) ∧
     ((applyPhaseChange p g).2.isGameOver.1 = false →
       (applyPhaseChange p g).2.phase = p) ∧
     ((applyPhaseChange p g).2.isGameOver.1 = true →
       (applyPhaseChange p g).2.phase = Phase.ended) ∧
     (applyPhaseChange p g).2.players =
       (if killed = "" then g.players else ((g.eliminatePlayer killed).2).players) ∧
     (killed ≠ "" → ∀ pl : Player,
       (applyPhaseChange p g).2.getPlayer killed = Option.some pl → pl.alive = false) ∧
     (g.phase ≠ Phase.night → g.phase ≠ Phase.voting →
       (applyPhaseChange p g).2.players = g.players) ∧
     (applyPhaseChange p g).1 = Except.ok
       (GameEvent.phaseChanged (applyPhaseChange p g).2.round g.phase.toStr p.toStr ::
         ((if killed ≠ "" then [GameEvent.playerEliminated killed reason] else []) ++
          (if ((applyPhaseChange p g).2.isGameOver).1 = true then
             [GameEvent.gameEnded (applyPhaseChange p g).2.winner.toStr] else [])))) ∧
    (∀ (minP maxP : Nat) (sh : List String) (rs : List Role) (effs : List GameEvent),
       (applyStartGame minP maxP sh rs g).1 = Except.ok effs →
       (applyStartGame minP maxP sh rs g).2.round = 1 ∧
         (applyStartGame minP maxP sh rs g).2.phase = Phase.night) := by
  refine ⟨?_, fun minP maxP sh rs effs h =>
    applyStartGame_ok_round_one minP maxP sh rs g effs h⟩
  obtain ⟨g4, hstate, heffs, hv, hm, hd, hs, hr, hp4, hply, hpl⟩ :=
    applyPhaseChange_full p g
  have hflag : ((applyPhaseChange p g).2.isGameOver).1 = g4.isGameOver.1 := by
    rw [hstate, isGameOver_idem]
  have hplayers : (applyPhaseChange p g).2.players =
      (if (match g.phase with
            | Phase.night => g.resolveNightActions
            | Phase.voting => g.resolveVotingPhase
            | _ => "") = "" then g.players
       else ((g.eliminatePlayer (match g.phase with
            | Phase.night => g.resolveNightActions
            | Phase.voting => g.resolveVotingPhase
            | _ => "")).2).players) := by
    rw [hstate, isGameOver_players, hply]
  refine ⟨⟨?_, ?_, ?_, ?_⟩, ?_, ?_, ?_, ?_, ?_, ?_, ?_⟩
  · rw [hstate, isGameOver_votes, hv]
  · rw [hstate, isGameOver_mafiaTarget, hm]
  · rw [hstate, isGameOver_doctorTarget, hd]
  · rw [hstate, isGameOver_sheriffTarget, hs]
  · rw [hstate, isGameOver_round, hr]
  · intro hov
    rw [hflag] at hov
    rw [hstate, isGameOver_false_eq g4 hov]
    exact hp4
  · intro hov
    rw [hflag] at hov
    rw [hstate]
    exact (isGameOver_true_out g4 hov).2
  · exact hplayers
  · intro hk pl hlook
    rw [if_neg hk] at hplayers
    simp only [GameState.getPlayer] at hlook
    rw [hplayers] at hlook
    exact eliminated_alive_false g _ pl hlook
  · intro h1 h2
    rw [hstate, isGameOver_players, hpl h1 h2]
  · rw [heffs, hstate, isGameOver_idem]

/-- Witness for C6: at a concrete Day-phase state the transition to
Voting keeps the players untouched and, since the game continues, sets
the phase to Voting; at a concrete Night state with a mafia target and no
doctor save the victim comes out of the transition marked dead; and a
successful four-player StartGame run sets round one and Night. -/
theorem phaseChange_semantics_witness :
    (let g0 : GameState :=
      { NewGameState "game-w6" with
        phase := Phase.day
        players :=
          [("m1", { id := "m1", name := "m", role := Role.mafia, alive := true }),
           ("v1", { id := "v1", name := "v", role := Role.villager, alive := true }),
           ("v2", { id := "v2", name := "w", role := Role.villager, alive := true })] }
     let g1 : GameState :=
      { NewGameState "game-w6b" with
        players :=
          [("p1", { id := "p1", name := "n1", role := Role.unknown, alive := true }),
           ("p2", { id := "p2", name := "n2", role := Role.unknown, alive := true }),
           ("p3", { id := "p3", name := "n3", role := Role.unknown, alive := true }),
           ("p4", { id := "p4", name := "n4", role := Role.unknown, alive := true })] }
     let g2 : GameState :=
      { NewGameState "game-w6c" with
        phase := Phase.night
        mafiaTarget := "p5"
        players :=
          [("p1", { id := "p1", name := "a", role := Role.mafia, alive := true }),
           ("p2", { id := "p2", name := "b", role := Role.mafia, alive := true }),
           ("p3", { id := "p3", name := "c", role := Role.doctor, alive := true }),
           ("p4", { id := "p4", name := "d", role := Role.sheriff, alive := true }),
           ("p5", { id := "p5", name := "e", role := Role.villager, alive := true }),
           ("p6", { id := "p6", name := "f", role := Role.villager, alive := true })] }
     (applyPhaseChange Phase.voting g0).2.players = g0.players ∧
       (applyPhaseChange Phase.voting g0).2.phase = Phase.voting ∧
       ({ id := "p5", name := "e", role := Role.villager, alive := false } : Player).alive
         = false ∧
       (applyStartGame 4 12 ["p1", "p2", "p3", "p4"]
         [Role.villager, Role.mafia, Role.doctor, Role.sheriff] g1).2.round = 1 ∧
       (applyStartGame 4 12 ["p1", "p2", "p3", "p4"]
         [Role.villager, Role.mafia, Role.doctor, Role.sheriff] g1).2.phase =
         Phase.night) := by
  refine ⟨?_, ?_, ?_, ?_, ?_⟩
  · exact (phaseChange_semantics Phase.voting _).1.2.2.2.2.2.2.1 (by decide) (by decide)
  · exact (phaseChange_semantics Phase.voting _).1.2.2.1 (by decide)
  · exact (phaseChange_semantics Phase.day
      { NewGameState "game-w6c" with
        phase := Phase.night
        mafiaTarget := "p5"
        players :=
          [("p1", { id := "p1", name := "a", role := Role.mafia, alive := true }),
           ("p2", { id := "p2", name := "b", role := Role.mafia, alive := true }),
           ("p3", { id := "p3", name := "c", role := Role.doctor, alive := true }),
           ("p4", { id := "p4", name := "d", role := Role.sheriff, alive := true }),
           ("p5", { id := "p5", name := "e", role := Role.villager, alive := true }),
           ("p6", { id := "p6", name := "f", role := Role.villager,
                    alive := true })] }).1.2.2.2.2.2.1 (by decide)
      { id := "p5", name := "e", role := Role.villager, alive := false } (by decide)
  · exact ((phaseChange_semantics Phase.voting _).2 4 12 ["p1", "p2", "p3", "p4"]
      [Role.villager, Role.mafia, Role.doctor, Role.sheriff]
      [GameEvent.gameStarted ["p1", "p2", "p3", "p4"],
       GameEvent.roleAssigned "p1" "villager", GameEvent.roleAssigned "p2" "mafia",
       GameEvent.roleAssigned "p3" "doctor", GameEvent.roleAssigned "p4" "sheriff",
       GameEvent.phaseChanged 1 "waiting" "night"] (by rfl)).1
  · exact ((phaseChange_semantics Phase.voting _).2 4 12 ["p1", "p2", "p3", "p4"]
      [Role.villager, Role.mafia, Role.doctor, Role.sheriff]
      [GameEvent.gameStarted ["p1", "p2", "p3", "p4"],
       GameEvent.roleAssigned "p1" "villager", GameEvent.roleAssigned "p2" "mafia",
       GameEvent.roleAssigned "p3" "doctor", GameEvent.roleAssigned "p4" "sheriff",
       GameEvent.phaseChanged 1 "waiting" "night"] (by rfl)).2

theorem maxCounts_nil : maxCounts [] = 0 := rfl

theorem maxCounts_cons (e : String × Nat) (l : List (String × Nat)) :
    maxCounts (e :: l) = max e.2 (maxCounts l) := rfl

theorem alUpdate_keys {α : Type} (l : List (String × α)) (k : String) (f : α → α) :
    (alUpdate l k f).map Prod.fst = l.map Prod.fst := by
  induction l with
  | nil => rfl
  | cons e rest ih =>
      obtain ⟨k2, v⟩ := e
      by_cases h : k2 = k
      all_goals simp [alUpdate, h, ih]

theorem alUpdate_length {α : Type} (l : List (String × α)) (k : String) (f : α → α) :
    (alUpdate l k f).length = l.length := by
  induction l with
  | nil => rfl
  | cons e rest ih =>
      obtain ⟨k2, v⟩ := e
      by_cases h : k2 = k
      all_goals simp [alUpdate, h, ih]

theorem alLookup_none_not_mem {α : Type} (l : List (String × α)) (k : String)
    (h : alLookup l k = Option.none) : k ∉ l.map Prod.fst := by
  induction l with
  | nil => simp
  | cons e rest ih =>
      obtain ⟨k2, v⟩ := e
      by_cases hk : k2 = k
      · simp [alLookup, hk] at h
      · simp [alLookup, hk] at h
        simp [hk, ih h]
        intro hc
        exact absurd hc.symm hk

theorem mem_alUpdate {α : Type} {l : List (String × α)} {k : String} {f : α → α}
    {x : String × α} (h : x ∈ alUpdate l k f) :
    x ∈ l ∨ ∃ v, (k, v) ∈ l ∧ x = (k, f v) := by
  induction l with
  | nil => simp [alUpdate] at h
  | cons e rest ih =>
      obtain ⟨k2, v⟩ := e
      by_cases hk : k2 = k
      · simp [alUpdate, hk] at h
        rcases h with h | h
        · exact Or.inr ⟨v, by simp [hk], by simp [h]⟩
        · exact Or.inl (by simp [h])
      · simp [alUpdate, hk] at h
        rcases h with h | h
        · exact Or.inl (by simp [h])
        · rcases ih h with h2 | ⟨v2, hv2, hx⟩
          · exact Or.inl (by simp [h2])
          · exact Or.inr ⟨v2, by simp [hv2], hx⟩

theorem bumpTally_keys_nodup (tally : List (String × Nat)) (target : String)
    (h : (tally.map Prod.fst).Nodup) : ((bumpTally tally target).map Prod.fst).Nodup := by
  unfold bumpTally
  split
  next hl =>
    rw [List.map_append]
    refine List.Nodup.append h (by simp) ?_
    intro a ha hb
    simp at hb
    exact alLookup_none_not_mem tally target hl (hb ▸ ha)
  next => rw [alUpdate_keys]; exact h

theorem tallyAux_keys_nodup (votes : List (String × String))
    (tally : List (String × Nat)) (h : (tally.map Prod.fst).Nodup) :
    (((votes.foldl (fun tl vt => bumpTally tl vt.2) tally)).map Prod.fst).Nodup := by
  induction votes generalizing tally with
  | nil => exact h
  | cons v rest ih => exact ih (bumpTally tally v.2) (bumpTally_keys_nodup tally v.2 h)

theorem tally_keys_nodup (votes : List (String × String)) :
    ((TallyVotes votes).map Prod.fst).Nodup :=
  tallyAux_keys_nodup votes [] (by simp)

theorem bumpTally_counts_pos (tally : List (String × Nat)) (target : String)
    (h : ∀ e ∈ tally, 1 ≤ e.2) : ∀ e ∈ bumpTally tally target, 1 ≤ e.2 := by
  unfold bumpTally
  split
  · intro e he
    simp at he
    rcases he with he | he
    · exact h e he
    · simp [he]
  · intro e he
    rcases mem_alUpdate he with h2 | ⟨v, hv, hx⟩
    · exact h e h2
    · simp [hx]

theorem tally_counts_pos (votes : List (String × String)) :
    ∀ e ∈ TallyVotes votes, 1 ≤ e.2 := by
  have haux : ∀ (vs : List (String × String)) (tally : List (String × Nat)),
      (∀ e ∈ tally, 1 ≤ e.2) →
      ∀ e ∈ vs.foldl (fun tl vt => bumpTally tl vt.2) tally, 1 ≤ e.2 := by
    intro vs
    induction vs with
    | nil => intro tally h; exact h
    | cons v rest ih =>
        intro tally h
        exact ih (bumpTally tally v.2) (bumpTally_counts_pos tally v.2 h)
  exact haux votes [] (by simp)

theorem tally_ne_nil (votes : List (String × String)) (h : votes ≠ []) :
    TallyVotes votes ≠ [] := by
  have haux : ∀ (vs : List (String × String)) (tally : List (String × Nat)),
      tally.length ≤ (vs.foldl (fun tl vt => bumpTally tl vt.2) tally).length := by
    intro vs
    induction vs with
    | nil => intro tally; exact Nat.le_refl _
    | cons v rest ih =>
        intro tally
        refine Nat.le_trans ?_ (ih (bumpTally tally v.2))
        unfold bumpTally
        split
        · simp
        · rw [alUpdate_length]
  cases votes with
  | nil => exact absurd rfl h
  | cons v rest =>
      intro hc
      have h1 := haux rest (bumpTally [] v.2)
      rw [show TallyVotes (v :: rest) = rest.foldl (fun tl vt => bumpTally tl vt.2) (bumpTally [] v.2) from rfl] at hc
      rw [hc] at h1
      simp [bumpTally, alLookup] at h1

theorem maxCounts_ge_of_mem {l : List (String × Nat)} {e : String × Nat}
    (h : e ∈ l) : e.2 ≤ maxCounts l := by
  induction l with
  | nil => simp at h
  | cons e2 rest ih =>
      rw [maxCounts_cons]
      rcases List.mem_cons.mp h with h1 | h1
      · rw [h1]; omega
      · have := ih h1; omega

theorem maxCounts_attained {l : List (String × Nat)} (h : l ≠ []) :
    ∃ e ∈ l, e.2 = maxCounts l := by
  induction l with
  | nil => exact absurd rfl h
  | cons e2 rest ih =>
      rw [maxCounts_cons]
      by_cases hr : rest = []
      · subst hr
        exact ⟨e2, by simp, by simp [maxCounts_nil]⟩
      · obtain ⟨e0, he0, he0max⟩ := ih hr
        by_cases hc : maxCounts rest ≤ e2.2
        · exact ⟨e2, by simp, by omega⟩
        · refine ⟨e0, by simp [he0], by omega⟩

theorem getTop_go_fst (L : List (String × Nat)) (m : Nat) (acc : List String) :
    (L.foldl topStep (m, acc)).1 = max m (maxCounts L) := by
  induction L generalizing m acc with
  | nil => simp [maxCounts_nil]
  | cons e rest ih =>
      rw [List.foldl_cons, maxCounts_cons]
      by_cases h1 : m < e.2
      · rw [show topStep (m, acc) e = (e.2, [e.1]) from by simp [topStep, h1]]
        rw [ih]
        omega
      · by_cases h2 : e.2 = m
        · rw [show topStep (m, acc) e = (m, acc ++ [e.1]) from by
            simp [topStep, h1, h2]]
          rw [ih]
          omega
        · rw [show topStep (m, acc) e = (m, acc) from by simp [topStep, h1, h2]]
          rw [ih]
          omega

theorem getTop_go_snd (L : List (String × Nat)) (m : Nat) (acc : List String) :
    (L.foldl topStep (m, acc)).2 =
      (if m < maxCounts L then [] else acc) ++
        (L.filter (fun e => e.2 = max m (maxCounts L))).map Prod.fst := by
  induction L generalizing m acc with
  | nil => simp [maxCounts_nil]
  | cons e rest ih =>
      rw [List.foldl_cons, List.filter_cons, maxCounts_cons]
      simp only [decide_eq_true_eq]
      by_cases h1 : m < e.2
      · rw [show topStep (m, acc) e = (e.2, [e.1]) from by simp [topStep, h1]]
        rw [ih]
        rw [if_pos (show m < max e.2 (maxCounts rest) by omega)]
        have hmm : max m (max e.2 (maxCounts rest)) = max e.2 (maxCounts rest) := by omega
        rw [hmm]
        by_cases h3 : e.2 < maxCounts rest
        · rw [if_pos h3, if_neg (show ¬ (e.2 = max e.2 (maxCounts rest)) by omega)]
        · rw [if_neg h3, if_pos (show e.2 = max e.2 (maxCounts rest) by omega)]
          have h4 : max e.2 (maxCounts rest) = e.2 := by omega
          rw [h4]
          try simp
      · by_cases h2 : e.2 = m
        · rw [show topStep (m, acc) e = (m, acc ++ [e.1]) from by
            simp [topStep, h1, h2]]
          rw [ih]
          have hmm : max m (max e.2 (maxCounts rest)) = max m (maxCounts rest) := by omega
          have hmm2 : max e.2 (maxCounts rest) = max m (maxCounts rest) := by omega
          rw [hmm, hmm2]
          by_cases h3 : m < maxCounts rest
          · rw [if_pos h3, if_pos (show m < max m (maxCounts rest) by omega),
              if_neg (show ¬ (e.2 = max m (maxCounts rest)) by omega)]
            try simp
          · rw [if_neg h3, if_neg (show ¬ (m < max m (maxCounts rest)) by omega),
              if_pos (show e.2 = max m (maxCounts rest) by omega)]
            try simp
        · rw [show topStep (m, acc) e = (m, acc) from by simp [topStep, h1, h2]]
          rw [ih]
          have hmm : max m (max e.2 (maxCounts rest)) = max m (maxCounts rest) := by omega
          rw [hmm, if_neg (show ¬ (e.2 = max m (maxCounts rest)) by omega)]
          by_cases h3 : m < maxCounts rest
          · rw [if_pos h3, if_pos (show m < max e.2 (maxCounts rest) by omega)]
          · rw [if_neg h3, if_neg (show ¬ (m < max e.2 (maxCounts rest)) by omega)]

theorem key_count_unique {T : List (String × Nat)} (hnd : (T.map Prod.fst).Nodup)
    {t : String} {a b : Nat} (ha : (t, a) ∈ T) (hb : (t, b) ∈ T) : a = b := by
  induction T with
  | nil => simp at ha
  | cons x xs ih =>
      simp only [List.map_cons, List.nodup_cons] at hnd
      rcases List.mem_cons.mp ha with h1 | h1 <;> rcases List.mem_cons.mp hb with h2 | h2
      · exact congrArg Prod.snd (h1.trans h2.symm)
      · exfalso
        apply hnd.1
        have hx1 : x.1 = t := (congrArg Prod.fst h1).symm
        have h3 := List.mem_map_of_mem Prod.fst h2
        rw [hx1]
        exact h3
      · exfalso
        apply hnd.1
        have hx1 : x.1 = t := (congrArg Prod.fst h2).symm
        have h3 := List.mem_map_of_mem Prod.fst h1
        rw [hx1]
        exact h3
      · exact ih hnd.2 h1 h2

theorem filter_eq_singleton (T : List (String × Nat)) (t : String) (c : Nat)
    (hnd : (T.map Prod.fst).Nodup) (hmem : (t, c) ∈ T)
    (huni : ∀ e ∈ T, e.2 = c → e.1 = t) :
    T.filter (fun e => e.2 = c) = [(t, c)] := by
  induction T with
  | nil => simp at hmem
  | cons x xs ih =>
      simp only [List.map_cons, List.nodup_cons] at hnd
      by_cases hx2 : x.2 = c
      · have hx1 : x.1 = t := huni x (List.mem_cons_self x xs) hx2
        have hx : x = (t, c) := Prod.ext hx1 hx2
        rw [List.filter_cons, if_pos (by simp [hx2])]
        have hnil : xs.filter (fun e => e.2 = c) = [] := by
          rw [List.filter_eq_nil_iff]
          intro e he
          simp only [decide_eq_true_eq]
          intro hec
          have := huni e (List.mem_cons_of_mem x he) hec
          apply hnd.1
          rw [hx1, ← this]
          exact List.mem_map_of_mem Prod.fst he
        rw [hnil, hx]
      · have hmem2 : (t, c) ∈ xs := by
          rcases List.mem_cons.mp hmem with h1 | h1
          · exact absurd (congrArg Prod.snd h1.symm) hx2
          · exact h1
        rw [List.filter_cons, if_neg (by simp [hx2])]
        exact ih hnd.2 hmem2 (fun e he => huni e (List.mem_cons_of_mem x he))

theorem two_mem_one_lt_length {α : Type} (l : List α) (a b : α) (ha : a ∈ l)
    (hb : b ∈ l) (hab : a ≠ b) : 1 < l.length := by
  cases l with
  | nil => simp at ha
  | cons x xs =>
      cases xs with
      | nil =>
          simp at ha hb
          try exact absurd (ha.trans hb.symm) hab
      | cons y ys =>
          simp
          try omega

theorem maxCounts_tally_pos (votes : List (String × String)) (hne : votes ≠ []) :
    0 < maxCounts (TallyVotes votes) := by
  obtain ⟨e, he, hemax⟩ := maxCounts_attained (tally_ne_nil votes hne)
  have := tally_counts_pos votes e he
  omega

theorem getTopVoted_eq (votes : List (String × String)) (hne : votes ≠ []) :
    getTopVoted votes = ((TallyVotes votes).filter
      (fun e => e.2 = maxCounts (TallyVotes votes))).map Prod.fst := by
  unfold getTopVoted
  rw [if_neg (by simp [hne])]
  rw [show TallyVotes votes = TallyVotes votes from rfl, getTop_go_snd]
  rw [if_pos (maxCounts_tally_pos votes hne)]
  simp [Nat.zero_max]

/-- C4: ResolveVotingPhase returns the empty string on an empty votes map;
it returns the target holding the strictly unique maximum of the vote
tally; and whenever two distinct targets share the maximal count it
returns the empty string; the source method only reads the state, so the
embedding is a pure function of the votes map. -/
theorem resolveVotingPhase_unique_max (g : GameState) :
    (g.votes = [] → g.resolveVotingPhase = "") ∧
    (∀ (t : String) (c : Nat), (t, c) ∈ TallyVotes g.votes →
       (∀ e ∈ TallyVotes g.votes, e.1 ≠ t → e.2 < c) →
       g.resolveVotingPhase = t) ∧
    (∀ (t1 t2 : String) (c : Nat), (t1, c) ∈ TallyVotes g.votes →
       (t2, c) ∈ TallyVotes g.votes → t1 ≠ t2 →
       (∀ e ∈ TallyVotes g.votes, e.2 ≤ c) →
       g.resolveVotingPhase = "") := by
  refine ⟨?_, ?_, ?_⟩
  · intro h
    simp [GameState.resolveVotingPhase, h]
  · intro t c hmem hmax
    have hne : g.votes ≠ [] := by
      intro h
      rw [h] at hmem
      simp [TallyVotes] at hmem
    have hc_le : c ≤ maxCounts (TallyVotes g.votes) := maxCounts_ge_of_mem hmem
    obtain ⟨⟨t0, c0⟩, he0, he0max⟩ := maxCounts_attained (tally_ne_nil g.votes hne)
    have hnd := tally_keys_nodup g.votes
    have hceq : c = maxCounts (TallyVotes g.votes) := by
      by_cases h0 : t0 = t
      · rw [h0] at he0
        have := key_count_unique hnd hmem he0
        simp at he0max
        omega
      · have := hmax (t0, c0) he0 (by simpa using h0)
        simp at he0max this
        omega
    have huni : ∀ e ∈ TallyVotes g.votes,
        e.2 = maxCounts (TallyVotes g.votes) → e.1 = t := by
      intro e he hemax2
      by_contra hc
      have := hmax e he hc
      omega
    have hfil := filter_eq_singleton (TallyVotes g.votes) t
      (maxCounts (TallyVotes g.votes)) hnd (hceq ▸ hmem) huni
    have hw : GetVoteWinner g.votes = (t, true) := by
      unfold GetVoteWinner
      rw [getTopVoted_eq g.votes hne, hfil]
      simp
    simp [GameState.resolveVotingPhase, hne, hw]
  · intro t1 t2 c h1 h2 hne12 hub
    have hne : g.votes ≠ [] := by
      intro h
      rw [h] at h1
      simp [TallyVotes] at h1
    have hceq : c = maxCounts (TallyVotes g.votes) := by
      have hle := maxCounts_ge_of_mem h1
      obtain ⟨e0, he0, he0max⟩ := maxCounts_attained (tally_ne_nil g.votes hne)
      have := hub e0 he0
      omega
    have hf1 : t1 ∈ ((TallyVotes g.votes).filter
        (fun e => e.2 = maxCounts (TallyVotes g.votes))).map Prod.fst := by
      refine List.mem_map_of_mem Prod.fst (List.mem_filter.mpr ⟨h1, by simp [← hceq]⟩)
    have hf2 : t2 ∈ ((TallyVotes g.votes).filter
        (fun e => e.2 = maxCounts (TallyVotes g.votes))).map Prod.fst := by
      refine List.mem_map_of_mem Prod.fst (List.mem_filter.mpr ⟨h2, by simp [← hceq]⟩)
    have hlen := two_mem_one_lt_length _ t1 t2 hf1 hf2 hne12
    have hw : GetVoteWinner g.votes = ("", false) := by
      unfold GetVoteWinner
      rw [getTopVoted_eq g.votes hne]
      rw [if_pos (by omega)]
    simp [GameState.resolveVotingPhase, hne, hw]

/-- Witness for C4: a three-vote map where two voters pick x and one picks
y resolves to x; the same voters split two against two resolve to nobody;
the empty map resolves to nobody. -/
theorem resolveVotingPhase_unique_max_witness :
    (let g1 : GameState :=
      { NewGameState "game-w4" with votes := [("a", "x"), ("b", "x"), ("c", "y")] }
     let g2 : GameState :=
      { NewGameState "game-w4b" with
        votes := [("a", "x"), ("b", "x"), ("c", "y"), ("d", "y")] }
     let g3 : GameState := NewGameState "game-w4c"
     g1.resolveVotingPhase = "x" ∧ g2.resolveVotingPhase = "" ∧
       g3.resolveVotingPhase = "") := by
  refine ⟨?_, ?_, ?_⟩
  · exact (resolveVotingPhase_unique_max _).2.1 "x" 2 (by decide) (by decide)
  · exact (resolveVotingPhase_unique_max _).2.2 "x" "y" 2 (by decide) (by decide)
      (by decide) (by decide)
  · exact (resolveVotingPhase_unique_max _).1 rfl
